import Mathlib

/-!
Verification development for the drawing-storage engine: a shallow embedding
of the C++ core (object storage, handle scheme, intern pools, metadata,
spatial queries, batch transforms and the chunked binary codec) together with
theorems settling the specification claims.

Modelling conventions:
* C++ float values are modelled as rational numbers.  Every concrete input
  appearing in a claim is exactly representable in IEEE single precision and
  the operations applied to it (add, sub, mul, compare) are exact there, so
  the rational model agrees bit-for-bit with the float computation on those
  inputs.  Calls into libm (sqrt, atan2, cos, sin) and the constant pi are
  abstracted as an oracle parameter.
* uint8/uint16/uint32 values are modelled as Nat; arithmetic that the source
  performs on them never overflows except where explicitly discussed (the
  24-bit handle index, where the source masks).
-/

/-- Compact RGBA color, one byte per channel (types.hpp Color). -/
structure Color where
  r : ℕ
  g : ℕ
  b : ℕ
  a : ℕ
deriving DecidableEq, Repr

/-- Default color constructor Color() : r=g=b=0, a=255. -/
instance : Inhabited Color := ⟨⟨0, 0, 0, 255⟩⟩

/-- Color::BLACK = {0,0,0,255}. -/
def Color.BLACK : Color := ⟨0, 0, 0, 255⟩

/-- Color::WHITE = {255,255,255,255}. -/
def Color.WHITE : Color := ⟨255, 255, 255, 255⟩

/-- Compact 2D point with float coordinates (types.hpp Point). -/
structure Point where
  x : ℚ
  y : ℚ
deriving DecidableEq, Repr

instance : Inhabited Point := ⟨⟨0, 0⟩⟩

/-- Axis-aligned bounding box (types.hpp BoundingBox). -/
structure BoundingBox where
  min_x : ℚ
  min_y : ℚ
  max_x : ℚ
  max_y : ℚ
deriving DecidableEq, Repr

/-- Default BoundingBox() : all zero. -/
instance : Inhabited BoundingBox := ⟨⟨0, 0, 0, 0⟩⟩

/-- BoundingBox::contains(p). -/
def BoundingBox.contains (bb : BoundingBox) (p : Point) : Bool :=
  p.x ≥ bb.min_x && p.x ≤ bb.max_x && p.y ≥ bb.min_y && p.y ≤ bb.max_y

/-- BoundingBox::intersects(other). -/
def BoundingBox.intersects (bb other : BoundingBox) : Bool :=
  !(bb.max_x < other.min_x || bb.min_x > other.max_x ||
    bb.max_y < other.min_y || bb.min_y > other.max_y)

/-- BoundingBox::expand(const Point&). -/
def BoundingBox.expandPoint (bb : BoundingBox) (p : Point) : BoundingBox :=
  { min_x := if p.x < bb.min_x then p.x else bb.min_x
    max_x := if p.x > bb.max_x then p.x else bb.max_x
    min_y := if p.y < bb.min_y then p.y else bb.min_y
    max_y := if p.y > bb.max_y then p.y else bb.max_y }

/-- BoundingBox::expand(const BoundingBox&). -/
def BoundingBox.expandBox (bb other : BoundingBox) : BoundingBox :=
  { min_x := if other.min_x < bb.min_x then other.min_x else bb.min_x
    max_x := if other.max_x > bb.max_x then other.max_x else bb.max_x
    min_y := if other.min_y < bb.min_y then other.min_y else bb.min_y
    max_y := if other.max_y > bb.max_y then other.max_y else bb.max_y }

/-- Object kind tag (types.hpp ObjectType, underlying uint8). -/
inductive ObjectType where
  | None
  | Line
  | Circle
  | Ellipse
  | Rectangle
  | Polygon
  | Polyline
  | Arc
  | Text
  | Path
  | Group
deriving DecidableEq, Repr

instance : Inhabited ObjectType := ⟨ObjectType.None⟩

/-- Numeric value of the enum tag, exactly the values fixed in types.hpp. -/
def ObjectType.toNat : ObjectType → ℕ
  | .None => 0
  | .Line => 1
  | .Circle => 2
  | .Ellipse => 3
  | .Rectangle => 4
  | .Polygon => 5
  | .Polyline => 6
  | .Arc => 7
  | .Text => 8
  | .Path => 9
  | .Group => 10

/-- Inverse of the enum cast static_cast of ObjectType applied to a byte.
Out-of-range byte values have no enumerator; every use in the source is a
switch or a comparison against a named enumerator, where such a value behaves
exactly like None (falls to the default branch / compares unequal), so they
are mapped to None here. -/
def ObjectType.ofByte : ℕ → ObjectType
  | 0 => .None
  | 1 => .Line
  | 2 => .Circle
  | 3 => .Ellipse
  | 4 => .Rectangle
  | 5 => .Polygon
  | 6 => .Polyline
  | 7 => .Arc
  | 8 => .Text
  | 9 => .Path
  | 10 => .Group
  | _ => .None

/-- Line style enum (types.hpp LineStyle). -/
inductive LineStyle where
  | Solid
  | Dashed
  | Dotted
  | DashDot
deriving DecidableEq, Repr

instance : Inhabited LineStyle := ⟨LineStyle.Solid⟩

/-- Gradient type enum (types.hpp GradientType). -/
inductive GradientType where
  | Linear
  | Radial
deriving DecidableEq, Repr

/-- Gradient stop: offset in [0,1] plus a color (types.hpp GradientStop). -/
structure GradientStop where
  offset : ℚ
  color : Color
deriving DecidableEq, Repr

/-- Compact gradient definition (types.hpp CompactGradient). -/
structure CompactGradient where
  type : GradientType
  stop_count : ℕ
  stop_offset : ℕ
  angle : ℚ
  center_x : ℚ
  center_y : ℚ
  radius : ℚ
deriving DecidableEq, Repr

/-- Metadata entry: a (key id, value id, owner handle) triple
(types.hpp MetadataEntry). -/
structure MetadataEntry where
  key_index : ℕ
  value_index : ℕ
  object_id : ℕ
deriving DecidableEq, Repr

/-- Object flag bitset over a uint16 (types.hpp ObjectFlags). -/
structure ObjectFlags where
  value : ℕ
deriving DecidableEq, Repr

/-- Flag bit constants of ObjectFlags. -/
def ObjectFlags.VISIBLE : ℕ := 1
def ObjectFlags.LOCKED : ℕ := 2
def ObjectFlags.SELECTED : ℕ := 4
def ObjectFlags.HAS_FILL : ℕ := 8
def ObjectFlags.HAS_STROKE : ℕ := 16
def ObjectFlags.HAS_TRANSFORM : ℕ := 32
def ObjectFlags.HAS_GRADIENT : ℕ := 64
def ObjectFlags.HAS_PATTERN : ℕ := 128
def ObjectFlags.HAS_METADATA : ℕ := 256

/-- Default flags: VISIBLE | HAS_FILL. -/
instance : Inhabited ObjectFlags := ⟨⟨ObjectFlags.VISIBLE ||| ObjectFlags.HAS_FILL⟩⟩

/-- ObjectFlags::set_gradient; clearing uses the uint16 complement of the bit,
written here as xor with 0xFFFF since each flag is a single bit below 2^16. -/
def ObjectFlags.set_gradient (f : ObjectFlags) (v : Bool) : ObjectFlags :=
  if v then ⟨f.value ||| ObjectFlags.HAS_GRADIENT⟩
  else ⟨f.value &&& (65535 ^^^ ObjectFlags.HAS_GRADIENT)⟩

/-- ObjectFlags::set_pattern. -/
def ObjectFlags.set_pattern (f : ObjectFlags) (v : Bool) : ObjectFlags :=
  if v then ⟨f.value ||| ObjectFlags.HAS_PATTERN⟩
  else ⟨f.value &&& (65535 ^^^ ObjectFlags.HAS_PATTERN)⟩

/-- ObjectFlags::set_metadata. -/
def ObjectFlags.set_metadata (f : ObjectFlags) (v : Bool) : ObjectFlags :=
  if v then ⟨f.value ||| ObjectFlags.HAS_METADATA⟩
  else ⟨f.value &&& (65535 ^^^ ObjectFlags.HAS_METADATA)⟩

/-- Common shape header (objects.hpp CompactObject, 28-byte layout with
gradient_id, pattern_id and name_id; the sentinel values 0xFFFF and
0xFFFFFFFF mean "none"). -/
structure CompactObject where
  type : ObjectType
  layer_id : ℕ
  flags : ObjectFlags
  fill_color : Color
  stroke_color : Color
  stroke_width : ℚ
  opacity : ℚ
  gradient_id : ℕ
  pattern_id : ℕ
  name_id : ℕ
deriving DecidableEq, Repr

/-- Constructor CompactObject(t): defaults from the source initializer list. -/
def CompactObject.init (t : ObjectType) : CompactObject :=
  { type := t, layer_id := 0, flags := default,
    fill_color := Color.BLACK, stroke_color := Color.BLACK,
    stroke_width := 1, opacity := 1,
    gradient_id := 65535, pattern_id := 65535, name_id := 4294967295 }

instance : Inhabited CompactObject := ⟨CompactObject.init .None⟩

/-- Compact circle record (objects.hpp CompactCircle). -/
structure CompactCircle where
  base : CompactObject
  x : ℚ
  y : ℚ
  radius : ℚ
deriving DecidableEq, Repr

/-- Constructor CompactCircle(x, y, r). -/
def CompactCircle.init (x y r : ℚ) : CompactCircle :=
  ⟨CompactObject.init .Circle, x, y, r⟩

instance : Inhabited CompactCircle := ⟨CompactCircle.init 0 0 0⟩

/-- CompactCircle::get_bounding_box. -/
def CompactCircle.get_bounding_box (c : CompactCircle) : BoundingBox :=
  ⟨c.x - c.radius, c.y - c.radius, c.x + c.radius, c.y + c.radius⟩

/-- Compact rectangle record (objects.hpp CompactRectangle). -/
structure CompactRectangle where
  base : CompactObject
  x : ℚ
  y : ℚ
  width : ℚ
  height : ℚ
  corner_radius : ℚ
deriving DecidableEq, Repr

/-- Constructor CompactRectangle(x, y, w, h, corner_radius). -/
def CompactRectangle.init (x y w h : ℚ) (corner : ℚ := 0) : CompactRectangle :=
  ⟨CompactObject.init .Rectangle, x, y, w, h, corner⟩

instance : Inhabited CompactRectangle := ⟨CompactRectangle.init 0 0 0 0⟩

/-- CompactRectangle::get_bounding_box. -/
def CompactRectangle.get_bounding_box (r : CompactRectangle) : BoundingBox :=
  ⟨r.x, r.y, r.x + r.width, r.y + r.height⟩

/-- Compact line record (objects.hpp CompactLine); padding bytes omitted. -/
structure CompactLine where
  base : CompactObject
  x1 : ℚ
  y1 : ℚ
  x2 : ℚ
  y2 : ℚ
  line_style : LineStyle
deriving DecidableEq, Repr

/-- Constructor CompactLine(x1, y1, x2, y2, style). -/
def CompactLine.init (x1 y1 x2 y2 : ℚ) (style : LineStyle := .Solid) : CompactLine :=
  ⟨CompactObject.init .Line, x1, y1, x2, y2, style⟩

instance : Inhabited CompactLine := ⟨CompactLine.init 0 0 0 0⟩

/-- CompactLine::get_bounding_box. -/
def CompactLine.get_bounding_box (l : CompactLine) : BoundingBox :=
  ⟨min l.x1 l.x2, min l.y1 l.y2, max l.x1 l.x2, max l.y1 l.y2⟩

/-- Compact ellipse record (objects.hpp CompactEllipse). -/
structure CompactEllipse where
  base : CompactObject
  x : ℚ
  y : ℚ
  rx : ℚ
  ry : ℚ
  rotation : ℚ
deriving DecidableEq, Repr

/-- Constructor CompactEllipse(x, y, rx, ry, rotation). -/
def CompactEllipse.init (x y rx ry : ℚ) (rotation : ℚ := 0) : CompactEllipse :=
  ⟨CompactObject.init .Ellipse, x, y, rx, ry, rotation⟩

instance : Inhabited CompactEllipse := ⟨CompactEllipse.init 0 0 0 0⟩

/-- CompactEllipse::get_bounding_box (conservative max-radius box). -/
def CompactEllipse.get_bounding_box (e : CompactEllipse) : BoundingBox :=
  ⟨e.x - max e.rx e.ry, e.y - max e.rx e.ry, e.x + max e.rx e.ry, e.y + max e.rx e.ry⟩

/-- Compact polygon record (objects.hpp CompactPolygon); padding omitted. -/
structure CompactPolygon where
  base : CompactObject
  point_offset : ℕ
  point_count : ℕ
  closed : Bool
deriving DecidableEq, Repr

/-- Constructor CompactPolygon(offset, count, closed). -/
def CompactPolygon.init (offset count : ℕ) (closed : Bool := true) : CompactPolygon :=
  ⟨CompactObject.init .Polygon, offset, count, closed⟩

instance : Inhabited CompactPolygon := ⟨⟨CompactObject.init .Polygon, 0, 0, true⟩⟩

/-- Compact polyline record (objects.hpp CompactPolyline); padding omitted. -/
structure CompactPolyline where
  base : CompactObject
  point_offset : ℕ
  point_count : ℕ
  line_style : LineStyle
deriving DecidableEq, Repr

/-- Constructor CompactPolyline(offset, count, style). -/
def CompactPolyline.init (offset count : ℕ) (style : LineStyle := .Solid) : CompactPolyline :=
  ⟨CompactObject.init .Polyline, offset, count, style⟩

instance : Inhabited CompactPolyline := ⟨⟨CompactObject.init .Polyline, 0, 0, .Solid⟩⟩

/-- Compact arc record (objects.hpp CompactArc); angles in radians. -/
structure CompactArc where
  base : CompactObject
  x : ℚ
  y : ℚ
  radius : ℚ
  start_angle : ℚ
  end_angle : ℚ
deriving DecidableEq, Repr

/-- Constructor CompactArc(x, y, radius, start_angle, end_angle). -/
def CompactArc.init (x y radius start_angle end_angle : ℚ) : CompactArc :=
  ⟨CompactObject.init .Arc, x, y, radius, start_angle, end_angle⟩

instance : Inhabited CompactArc := ⟨CompactArc.init 0 0 0 0 0⟩

/-- CompactArc::get_bounding_box (conservative full-circle box). -/
def CompactArc.get_bounding_box (a : CompactArc) : BoundingBox :=
  ⟨a.x - a.radius, a.y - a.radius, a.x + a.radius, a.y + a.radius⟩

/-- Compact text record (objects.hpp CompactText); align and baseline kept as
their uint8 values exactly as stored. -/
structure CompactText where
  base : CompactObject
  x : ℚ
  y : ℚ
  text_index : ℕ
  font_size : ℚ
  font_index : ℕ
  align : ℕ
  baseline : ℕ
deriving DecidableEq, Repr

instance : Inhabited CompactText := ⟨⟨CompactObject.init .Text, 0, 0, 0, 16, 0, 0, 0⟩⟩

/-- CompactText::get_bounding_box (glyph-metric estimate from the source). -/
def CompactText.get_bounding_box (t : CompactText) : BoundingBox :=
  let estimated_width : ℚ := t.font_size * (6/10) * 10
  let estimated_height : ℚ := t.font_size * (12/10)
  let left : ℚ :=
    if t.align = 1 then t.x - estimated_width / 2
    else if t.align = 2 then t.x - estimated_width
    else t.x
  let top : ℚ :=
    if t.baseline = 1 then t.y - estimated_height / 2
    else if t.baseline = 0 then t.y
    else if t.baseline = 2 then t.y - estimated_height
    else t.y - estimated_height * (8/10)
  ⟨left, top, left + estimated_width, top + estimated_height⟩

/-- Path command tag (objects.hpp PathCommand). -/
inductive PathCommand where
  | MoveTo
  | LineTo
  | CurveTo
  | QuadTo
  | ArcTo
  | Close
deriving DecidableEq, Repr

/-- Path segment record (objects.hpp PathSegment). -/
structure PathSegment where
  cmd : PathCommand
  param_count : ℕ
  param_offset : ℕ
deriving DecidableEq, Repr

instance : Inhabited PathSegment := ⟨⟨PathCommand.MoveTo, 0, 0⟩⟩

/-- Compact path record (objects.hpp CompactPath). -/
structure CompactPath where
  base : CompactObject
  segment_offset : ℕ
  segment_count : ℕ
  param_offset : ℕ
  param_count : ℕ
  flags : ℕ
deriving DecidableEq, Repr

instance : Inhabited CompactPath := ⟨⟨CompactObject.init .Path, 0, 0, 0, 0, 0⟩⟩

/-- Compact group record (objects.hpp CompactGroup). -/
structure CompactGroup where
  base : CompactObject
  child_offset : ℕ
  child_count : ℕ
  parent_id : ℕ
  pivot_x : ℚ
  pivot_y : ℚ
deriving DecidableEq, Repr

instance : Inhabited CompactGroup := ⟨⟨CompactObject.init .Group, 0, 0, 65535, 0, 0⟩⟩

/-- Opaque object identifier: a uint32 laid out as kind byte then 24-bit
index (objects.hpp ObjectID). -/
abbrev ObjectID : Type := ℕ

/-- Structure-of-arrays object storage (objects.hpp ObjectStorage).  The
private transforms vector is omitted: no operation below reads or writes it. -/
structure ObjectStorage where
  circles : List CompactCircle := []
  rectangles : List CompactRectangle := []
  lines : List CompactLine := []
  ellipses : List CompactEllipse := []
  polygons : List CompactPolygon := []
  polylines : List CompactPolyline := []
  arcs : List CompactArc := []
  texts : List CompactText := []
  paths : List CompactPath := []
  groups : List CompactGroup := []
  polygon_points : List Point := []
  polyline_points : List Point := []
  text_strings : List String := []
  font_names : List String := []
  path_segments : List PathSegment := []
  path_parameters : List ℚ := []
  group_children : List ObjectID := []
  gradients : List CompactGradient := []
  gradient_stops : List GradientStop := []
  patterns : List String := []
  object_names : List String := []
  metadata_entries : List MetadataEntry := []
  metadata_keys : List String := []
  metadata_values : List String := []
deriving DecidableEq, Repr

instance : Inhabited ObjectStorage := ⟨{}⟩

/-- ObjectStorage::make_id: (type byte shifted into bits 24-31) or-ed with the
low 24 bits of the index.  All inputs give a value below 2^32, so the uint32
arithmetic never wraps beyond what the explicit mask already does. -/
def ObjectStorage.make_id (type : ObjectType) (index : ℕ) : ObjectID :=
  (type.toNat <<< 24) ||| (index &&& 16777215)

/-- ObjectStorage::get_type: cast of the high byte. -/
def ObjectStorage.get_type (id : ObjectID) : ObjectType :=
  ObjectType.ofByte ((id : ℕ) >>> 24)

/-- ObjectStorage::get_index: low 24 bits. -/
def ObjectStorage.get_index (id : ObjectID) : ℕ :=
  (id : ℕ) &&& 16777215

/-- Arithmetic form of make_id: the kind byte and masked index occupy disjoint
bit ranges, so the bitwise or is an addition. -/
theorem ObjectStorage.make_id_eq (t : ObjectType) (i : ℕ) :
    ObjectStorage.make_id t i = t.toNat * 2 ^ 24 + i % 2 ^ 24 := by
  unfold ObjectStorage.make_id
  have hmask : i &&& 16777215 = i % 2 ^ 24 := by
    have := Nat.and_pow_two_sub_one_eq_mod i 24
    norm_num at this
    exact this
  have hlt : i % 2 ^ 24 < 2 ^ 24 := Nat.mod_lt _ (by norm_num)
  rw [hmask, Nat.shiftLeft_eq, Nat.mul_comm, ← Nat.mul_add_lt_is_or hlt, Nat.mul_comm]

/-- Decoding the kind from an encoded handle. -/
theorem ObjectStorage.get_type_make_id (t : ObjectType) (i : ℕ) :
    ObjectStorage.get_type (ObjectStorage.make_id t i) = t := by
  show ObjectType.ofByte ((ObjectStorage.make_id t i : ℕ) >>> 24) = t
  rw [ObjectStorage.make_id_eq, Nat.shiftRight_eq_div_pow]
  have hlt : i % 2 ^ 24 < 2 ^ 24 := Nat.mod_lt _ (by norm_num)
  rw [Nat.mul_comm, Nat.mul_add_div (by norm_num : 0 < 2 ^ 24),
    Nat.div_eq_of_lt hlt, Nat.add_zero]
  cases t <;> rfl

/-- Decoding the index from an encoded handle (for any index: the low 24 bits
of the index are recovered). -/
theorem ObjectStorage.get_index_make_id (t : ObjectType) (i : ℕ) :
    ObjectStorage.get_index (ObjectStorage.make_id t i) = i % 2 ^ 24 := by
  show (ObjectStorage.make_id t i : ℕ) &&& 16777215 = i % 2 ^ 24
  rw [ObjectStorage.make_id_eq,
    show (16777215 : ℕ) = 2 ^ 24 - 1 by norm_num,
    Nat.and_pow_two_sub_one_eq_mod, Nat.mul_add_mod']
  exact Nat.mod_mod_of_dvd i dvd_rfl

/-- C9: For every shape kind and every index strictly below the 24-bit
capacity ceiling, get_type(make_id(kind, index)) = kind and
get_index(make_id(kind, index)) = index. -/
theorem c9_handle_round_trip (t : ObjectType) (i : ℕ) (h : i < 2 ^ 24) :
    ObjectStorage.get_type (ObjectStorage.make_id t i) = t ∧
    ObjectStorage.get_index (ObjectStorage.make_id t i) = i := by
  refine ⟨ObjectStorage.get_type_make_id t i, ?_⟩
  rw [ObjectStorage.get_index_make_id, Nat.mod_eq_of_lt h]

/-- Witness for C9 at kind Circle and index 12345. -/
theorem c9_handle_round_trip_witness :
    12345 < 2 ^ 24 ∧
    (ObjectStorage.get_type (ObjectStorage.make_id .Circle 12345) = .Circle ∧
     ObjectStorage.get_index (ObjectStorage.make_id .Circle 12345) = 12345) :=
  ⟨by norm_num, c9_handle_round_trip .Circle 12345 (by norm_num)⟩

/-- ObjectStorage::add_circle: appends and returns a handle built from the new
table size minus one.  There is no capacity check of any kind. -/
def ObjectStorage.add_circle (s : ObjectStorage) (x y radius : ℚ) :
    ObjectStorage × ObjectID :=
  let circles' := s.circles ++ [CompactCircle.init x y radius]
  ({ s with circles := circles' }, ObjectStorage.make_id .Circle (circles'.length - 1))

/-- Helper: the handle returned by add_circle is built from the old length. -/
theorem ObjectStorage.add_circle_snd (s : ObjectStorage) (x y r : ℚ) :
    (s.add_circle x y r).2 = ObjectStorage.make_id .Circle s.circles.length := by
  simp only [ObjectStorage.add_circle, List.length_append, List.length_cons,
    List.length_nil]
  norm_num

/-- C3 evidence: insertion does not reject at the capacity ceiling and wraps.
With 2^24 circles already stored the next add_circle returns the handle of
record 0 (silent aliasing); with 2^24 - 1 circles stored (so this is the
16,777,216th insertion) it succeeds normally instead of failing, there being
no CapacityExceeded path in the code at all. -/
theorem c3_capacity_wrap_aliases :
    (ObjectStorage.add_circle
        { circles := List.replicate (2 ^ 24) (CompactCircle.init 0 0 1) } 5 5 1).2 =
      ObjectStorage.make_id .Circle 0 ∧
    (ObjectStorage.add_circle
        { circles := List.replicate (2 ^ 24 - 1) (CompactCircle.init 0 0 1) } 5 5 1).2 =
      ObjectStorage.make_id .Circle (2 ^ 24 - 1) := by
  constructor
  · rw [ObjectStorage.add_circle_snd, List.length_replicate,
      ObjectStorage.make_id_eq, ObjectStorage.make_id_eq]
    norm_num
  · rw [ObjectStorage.add_circle_snd, List.length_replicate]

/-- Linear search of a string pool, mirroring the for-loops in
add_object_name / find_or_add_key / find_or_add_value: the index of the first
equal string, if any. -/
def findStringIdx : List String → String → Option ℕ
  | [], _ => none
  | y :: rest, x => if y = x then some 0 else (findStringIdx rest x).map (· + 1)

/-- Common body of the three deduplicating intern functions: return the index
of the first equal string, otherwise append and return the new index (the new
length minus one, as the source computes it). -/
def findOrAddString (l : List String) (x : String) : List String × ℕ :=
  match findStringIdx l x with
  | some i => (l, i)
  | none => (l ++ [x], (l ++ [x]).length - 1)

/-- ObjectStorage::add_object_name (deduplicating; loop factored through
findOrAddString). -/
def ObjectStorage.add_object_name (s : ObjectStorage) (name : String) :
    ObjectStorage × ℕ :=
  let r := findOrAddString s.object_names name
  ({ s with object_names := r.1 }, r.2)

/-- ObjectStorage::find_or_add_key (deduplicating). -/
def ObjectStorage.find_or_add_key (s : ObjectStorage) (key : String) :
    ObjectStorage × ℕ :=
  let r := findOrAddString s.metadata_keys key
  ({ s with metadata_keys := r.1 }, r.2)

/-- ObjectStorage::find_or_add_value (deduplicating). -/
def ObjectStorage.find_or_add_value (s : ObjectStorage) (value : String) :
    ObjectStorage × ℕ :=
  let r := findOrAddString s.metadata_values value
  ({ s with metadata_values := r.1 }, r.2)

/-- ObjectStorage::add_pattern: pushes unconditionally, with no search for an
existing equal string, and returns the new index. -/
def ObjectStorage.add_pattern (s : ObjectStorage) (pattern_name : String) :
    ObjectStorage × ℕ :=
  let patterns' := s.patterns ++ [pattern_name]
  ({ s with patterns := patterns' }, patterns'.length - 1)

/-- A found index points at the sought string. -/
theorem findStringIdx_get (l : List String) (x : String) (i : ℕ)
    (h : findStringIdx l x = some i) : l.get? i = some x := by
  induction l generalizing i with
  | nil => simp [findStringIdx] at h
  | cons y rest ih =>
    by_cases hy : y = x
    · simp [findStringIdx, hy] at h
      subst h
      simp [hy]
    · simp [findStringIdx, hy] at h
      obtain ⟨j, hj, rfl⟩ := h
      simpa using ih j hj

/-- Appending the sought string to a pool that lacks it puts it at the old
length. -/
theorem findStringIdx_append_self (l : List String) (x : String)
    (h : findStringIdx l x = none) :
    findStringIdx (l ++ [x]) x = some l.length := by
  induction l with
  | nil => simp [findStringIdx]
  | cons y rest ih =>
    by_cases hy : y = x
    · simp [findStringIdx, hy] at h
    · simp only [findStringIdx, hy, if_false] at h
      have h2 : findStringIdx rest x = none := by
        cases hr : findStringIdx rest x with
        | none => rfl
        | some j => rw [hr] at h; simp at h
      simp [List.cons_append, findStringIdx, hy, ih h2]

/-- The interned index resolves to the interned string. -/
theorem findOrAddString_get (l : List String) (x : String) :
    (findOrAddString l x).1.get? (findOrAddString l x).2 = some x := by
  unfold findOrAddString
  cases h : findStringIdx l x with
  | some i => simpa using findStringIdx_get l x i h
  | none =>
    simp only [List.length_append, List.length_cons, List.length_nil]
    have : l.length + 1 - 1 = l.length := by omega
    rw [this]
    simp [List.get?_append_right (Nat.le_refl l.length)]

/-- Interning a second time finds the existing entry: the pool is unchanged
and the same index is returned. -/
theorem findOrAddString_idem (l : List String) (x : String) :
    findOrAddString (findOrAddString l x).1 x = findOrAddString l x := by
  unfold findOrAddString
  cases h : findStringIdx l x with
  | some i => simp [h]
  | none =>
    simp only
    rw [findStringIdx_append_self l x h]
    simp only [List.length_append, List.length_cons, List.length_nil]
    have : l.length + 1 - 1 = l.length := by omega
    rw [this]

/-- The pool after interning is the old pool or the old pool with the string
appended. -/
theorem findOrAddString_fst (l : List String) (x : String) :
    (findOrAddString l x).1 = l ∨ (findOrAddString l x).1 = l ++ [x] := by
  unfold findOrAddString
  cases h : findStringIdx l x with
  | some i => simp
  | none => simp

/-- Interning two distinct strings in sequence returns distinct indices. -/
theorem findOrAddString_distinct (l : List String) (a b : String) (hab : a ≠ b) :
    (findOrAddString (findOrAddString l a).1 b).2 ≠ (findOrAddString l a).2 := by
  intro heq
  have ha := findOrAddString_get l a
  have hb := findOrAddString_get (findOrAddString l a).1 b
  have hlt : (findOrAddString l a).2 < (findOrAddString l a).1.length :=
    List.get?_eq_some.mp ha |>.1
  have hsame : (findOrAddString (findOrAddString l a).1 b).1.get?
      (findOrAddString l a).2 = some a := by
    rcases findOrAddString_fst (findOrAddString l a).1 b with hcase | hcase
    · rw [hcase]; exact ha
    · rw [hcase, List.get?_append hlt]; exact ha
  rw [heq, hsame] at hb
  exact hab (Option.some.inj hb)

/-- C5 counterexample: the pattern pool does not deduplicate.  Interning the
same pattern string twice into an empty storage returns id 0 and then id 1,
refuting intern idempotence for the pattern-reference pool. -/
theorem c5_pattern_intern_counterexample :
    (ObjectStorage.add_pattern ({} : ObjectStorage) "hatch").2 = 0 ∧
    (ObjectStorage.add_pattern
        (ObjectStorage.add_pattern ({} : ObjectStorage) "hatch").1 "hatch").2 = 1 ∧
    (ObjectStorage.add_pattern ({} : ObjectStorage) "hatch").2 ≠
      (ObjectStorage.add_pattern
        (ObjectStorage.add_pattern ({} : ObjectStorage) "hatch").1 "hatch").2 := by
  refine ⟨rfl, rfl, ?_⟩
  decide

/-- C5 amended: the object-name, metadata-key and metadata-value pools are
deduplicating intern pools (re-interning a string returns the same id and the
pool is unchanged; interning two distinct strings returns distinct ids), while
the pattern pool appends unconditionally, so re-interning the same pattern
string always returns a fresh id. -/
theorem c5_intern_dedup_three_pools_not_patterns
    (s : ObjectStorage) (n a b : String) (hab : a ≠ b) :
    ((s.add_object_name n).1.add_object_name n).2 = (s.add_object_name n).2 ∧
    ((s.find_or_add_key n).1.find_or_add_key n).2 = (s.find_or_add_key n).2 ∧
    ((s.find_or_add_value n).1.find_or_add_value n).2 = (s.find_or_add_value n).2 ∧
    (((s.add_object_name a).1.add_object_name b).2 ≠ (s.add_object_name a).2) ∧
    (((s.find_or_add_key a).1.find_or_add_key b).2 ≠ (s.find_or_add_key a).2) ∧
    (((s.find_or_add_value a).1.find_or_add_value b).2 ≠ (s.find_or_add_value a).2) ∧
    ((s.add_pattern n).1.add_pattern n).2 = (s.add_pattern n).2 + 1 := by
  refine ⟨?_, ?_, ?_, ?_, ?_, ?_, ?_⟩
  · simp only [ObjectStorage.add_object_name]
    rw [findOrAddString_idem]
  · simp only [ObjectStorage.find_or_add_key]
    rw [findOrAddString_idem]
  · simp only [ObjectStorage.find_or_add_value]
    rw [findOrAddString_idem]
  · simp only [ObjectStorage.add_object_name]
    exact findOrAddString_distinct s.object_names a b hab
  · simp only [ObjectStorage.find_or_add_key]
    exact findOrAddString_distinct s.metadata_keys a b hab
  · simp only [ObjectStorage.find_or_add_value]
    exact findOrAddString_distinct s.metadata_values a b hab
  · simp only [ObjectStorage.add_pattern, List.length_append, List.length_cons,
      List.length_nil]
    omega

/-- Witness for the C5 amended theorem at concrete strings. -/
theorem c5_intern_dedup_witness :
    ("alpha" : String) ≠ "beta" ∧
    ((({} : ObjectStorage).add_object_name "n").1.add_object_name "n").2 =
      (({} : ObjectStorage).add_object_name "n").2 := by
  have h := c5_intern_dedup_three_pools_not_patterns ({} : ObjectStorage)
    "n" "alpha" "beta" (by decide)
  exact ⟨by decide, h.1⟩

/-- In-place update of one list element, the functional rendering of writing
through a pointer obtained from the storage tables. -/
def modifyAt {α : Type} : List α → ℕ → (α → α) → List α
  | [], _, _ => []
  | x :: rest, 0, f => f x :: rest
  | x :: rest, n + 1, f => x :: modifyAt rest n f

/-- modifyAt preserves length. -/
theorem modifyAt_length {α : Type} (l : List α) (i : ℕ) (f : α → α) :
    (modifyAt l i f).length = l.length := by
  induction l generalizing i with
  | nil => cases i <;> rfl
  | cons x rest ih =>
    cases i with
    | zero => rfl
    | succ n => simp [modifyAt, ih]

/-- ObjectStorage::get_object_base: dispatch on the handle kind, bounds-check
the index, and return the record header. -/
def ObjectStorage.get_object_base (s : ObjectStorage) (id : ObjectID) :
    Option CompactObject :=
  let idx := ObjectStorage.get_index id
  match ObjectStorage.get_type id with
  | .Circle => (s.circles.get? idx).map CompactCircle.base
  | .Rectangle => (s.rectangles.get? idx).map CompactRectangle.base
  | .Line => (s.lines.get? idx).map CompactLine.base
  | .Ellipse => (s.ellipses.get? idx).map CompactEllipse.base
  | .Polygon => (s.polygons.get? idx).map CompactPolygon.base
  | .Polyline => (s.polylines.get? idx).map CompactPolyline.base
  | .Arc => (s.arcs.get? idx).map CompactArc.base
  | .Text => (s.texts.get? idx).map CompactText.base
  | .Path => (s.paths.get? idx).map CompactPath.base
  | .Group => (s.groups.get? idx).map CompactGroup.base
  | .None => none

/-- Writing through the record pointer returned by get_object_base: apply f to
the header of the addressed record (no effect when the handle does not
resolve, matching the null-pointer guard in the callers). -/
def ObjectStorage.modify_object_base (s : ObjectStorage) (id : ObjectID)
    (f : CompactObject → CompactObject) : ObjectStorage :=
  let idx := ObjectStorage.get_index id
  match ObjectStorage.get_type id with
  | .Circle => { s with circles := modifyAt s.circles idx (fun r => { r with base := f r.base }) }
  | .Rectangle => { s with rectangles := modifyAt s.rectangles idx (fun r => { r with base := f r.base }) }
  | .Line => { s with lines := modifyAt s.lines idx (fun r => { r with base := f r.base }) }
  | .Ellipse => { s with ellipses := modifyAt s.ellipses idx (fun r => { r with base := f r.base }) }
  | .Polygon => { s with polygons := modifyAt s.polygons idx (fun r => { r with base := f r.base }) }
  | .Polyline => { s with polylines := modifyAt s.polylines idx (fun r => { r with base := f r.base }) }
  | .Arc => { s with arcs := modifyAt s.arcs idx (fun r => { r with base := f r.base }) }
  | .Text => { s with texts := modifyAt s.texts idx (fun r => { r with base := f r.base }) }
  | .Path => { s with paths := modifyAt s.paths idx (fun r => { r with base := f r.base }) }
  | .Group => { s with groups := modifyAt s.groups idx (fun r => { r with base := f r.base }) }
  | .None => s

/-- The loop of set_object_metadata over metadata_entries: update the first
entry matching (owner, key) in place and report whether one was found. -/
def updateMetadataValue : List MetadataEntry → ObjectID → ℕ → ℕ →
    List MetadataEntry × Bool
  | [], _, _, _ => ([], false)
  | e :: rest, id, kIdx, vIdx =>
    if e.object_id = id ∧ e.key_index = kIdx then
      ({ e with value_index := vIdx } :: rest, true)
    else
      let r := updateMetadataValue rest id kIdx vIdx
      (e :: r.1, r.2)

/-- ObjectStorage::set_object_metadata: no-op on an unresolvable owner;
otherwise intern key and value, update the existing (owner, key) entry in
place if present, else append a new entry and set the metadata flag. -/
def ObjectStorage.set_object_metadata (s : ObjectStorage) (id : ObjectID)
    (key value : String) : ObjectStorage :=
  match s.get_object_base id with
  | none => s
  | some _ =>
    let rk := s.find_or_add_key key
    let rv := rk.1.find_or_add_value value
    let s2 := rv.1
    let u := updateMetadataValue s2.metadata_entries id rk.2 rv.2
    if u.2 then { s2 with metadata_entries := u.1 }
    else
      let s3 := { s2 with
        metadata_entries := s2.metadata_entries ++ [(⟨rk.2, rv.2, id⟩ : MetadataEntry)] }
      s3.modify_object_base id (fun b => { b with flags := b.flags.set_metadata true })

/-- Match predicate of the set_object_metadata loop: an entry belongs to the
given owner and key id. -/
def metaMatch (id : ObjectID) (kIdx : ℕ) (e : MetadataEntry) : Bool :=
  e.object_id == id && e.key_index == kIdx

/-- If no entry matches, the update loop leaves the list alone and reports
not-found. -/
theorem updateMetadataValue_none (es : List MetadataEntry) (id : ObjectID)
    (kIdx vIdx : ℕ) (h : es.countP (metaMatch id kIdx) = 0) :
    updateMetadataValue es id kIdx vIdx = (es, false) := by
  induction es with
  | nil => rfl
  | cons e rest ih =>
    have hpe : ¬(e.object_id = id ∧ e.key_index = kIdx) := by
      rintro ⟨h1, h2⟩
      rw [List.countP_cons_of_pos _ _ (by simp [metaMatch, h1, h2])] at h
      omega
    have hme : ¬(metaMatch id kIdx e = true) := by
      simp only [metaMatch, Bool.and_eq_true, beq_iff_eq]
      exact hpe
    rw [List.countP_cons_of_neg _ _ hme] at h
    simp [updateMetadataValue, hpe, ih h]

/-- If exactly one entry matches, the update loop reports found and the
matching entries of the result list are exactly the updated entry. -/
theorem updateMetadataValue_one (es : List MetadataEntry) (id : ObjectID)
    (kIdx vIdx : ℕ) (h : es.countP (metaMatch id kIdx) = 1) :
    (updateMetadataValue es id kIdx vIdx).2 = true ∧
    (updateMetadataValue es id kIdx vIdx).1.filter (metaMatch id kIdx) =
      [⟨kIdx, vIdx, id⟩] := by
  induction es with
  | nil => simp [List.countP_nil] at h
  | cons e rest ih =>
    by_cases hpe : e.object_id = id ∧ e.key_index = kIdx
    · have hme : metaMatch id kIdx e = true := by
        simp [metaMatch, hpe.1, hpe.2]
      rw [List.countP_cons_of_pos _ _ hme] at h
      have hrest : rest.countP (metaMatch id kIdx) = 0 := by omega
      have hfil : rest.filter (metaMatch id kIdx) = [] := by
        rw [List.filter_eq_nil_iff]
        exact List.countP_eq_zero.mp hrest
      obtain ⟨h1, h2⟩ := hpe
      refine ⟨by simp [updateMetadataValue, h1, h2], ?_⟩
      simp only [updateMetadataValue, h1, h2, and_self, if_true]
      rw [List.filter_cons]
      cases e with
      | mk ek ev eo =>
        simp only at h1 h2
        subst h1
        subst h2
        simp [metaMatch, hfil]
    · have hme : ¬(metaMatch id kIdx e = true) := by
        simp only [metaMatch, Bool.and_eq_true, beq_iff_eq]
        exact hpe
      rw [List.countP_cons_of_neg _ _ hme] at h
      obtain ⟨ih1, ih2⟩ := ih h
      constructor
      · simp [updateMetadataValue, hpe, ih1]
      · simp only [updateMetadataValue, hpe, if_false]
        rw [List.filter_cons]
        simp only [Bool.not_eq_true] at hme
        simp [hme, ih2]

/-- Element lookup after modifyAt. -/
theorem modifyAt_getElem? {α : Type} (l : List α) (i j : ℕ) (f : α → α) :
    (modifyAt l i f)[j]? = if j = i then l[i]?.map f else l[j]? := by
  induction l generalizing i j with
  | nil => cases i <;> cases j <;> simp [modifyAt]
  | cons x rest ih =>
    cases i with
    | zero =>
      cases j with
      | zero => simp [modifyAt]
      | succ m => simp [modifyAt]
    | succ n =>
      cases j with
      | zero => simp [modifyAt]
      | succ m =>
        simp only [modifyAt, List.getElem?_cons_succ]
        rw [ih]
        by_cases hmn : m = n <;> simp [hmn]

/-- modify_object_base does not touch the metadata lists. -/
theorem modify_object_base_meta (s : ObjectStorage) (id : ObjectID)
    (f : CompactObject → CompactObject) :
    (s.modify_object_base id f).metadata_entries = s.metadata_entries ∧
    (s.modify_object_base id f).metadata_keys = s.metadata_keys ∧
    (s.modify_object_base id f).metadata_values = s.metadata_values := by
  unfold ObjectStorage.modify_object_base
  cases ObjectStorage.get_type id <;> simp

/-- modify_object_base preserves resolvability of the modified handle. -/
theorem modify_object_base_isSome (s : ObjectStorage) (id : ObjectID)
    (f : CompactObject → CompactObject) :
    ((s.modify_object_base id f).get_object_base id).isSome =
      (s.get_object_base id).isSome := by
  unfold ObjectStorage.modify_object_base ObjectStorage.get_object_base
  cases ObjectStorage.get_type id <;> simp [modifyAt_getElem?]

/-- get_object_base only reads the ten shape tables. -/
theorem get_object_base_congr (s s' : ObjectStorage) (id : ObjectID)
    (hc : s'.circles = s.circles) (hr : s'.rectangles = s.rectangles)
    (hl : s'.lines = s.lines) (he : s'.ellipses = s.ellipses)
    (hpg : s'.polygons = s.polygons) (hpl : s'.polylines = s.polylines)
    (ha : s'.arcs = s.arcs) (ht : s'.texts = s.texts)
    (hp : s'.paths = s.paths) (hg : s'.groups = s.groups) :
    s'.get_object_base id = s.get_object_base id := by
  unfold ObjectStorage.get_object_base
  cases ObjectStorage.get_type id <;> simp [hc, hr, hl, he, hpg, hpl, ha, ht, hp, hg]

/-- Behaviour of one set_object_metadata call on a resolvable owner, starting
from a storage with at most one entry for the (owner, key) pair: afterwards
the pools hold the interned key and value and exactly one entry for the pair
remains, carrying the just-interned value id. -/
theorem set_object_metadata_spec (s : ObjectStorage) (id : ObjectID) (k v : String)
    (hbase : (s.get_object_base id).isSome = true)
    (huniq : s.metadata_entries.countP
        (metaMatch id (findOrAddString s.metadata_keys k).2) ≤ 1) :
    (s.set_object_metadata id k v).metadata_keys = (findOrAddString s.metadata_keys k).1 ∧
    (s.set_object_metadata id k v).metadata_values =
      (findOrAddString s.metadata_values v).1 ∧
    (s.set_object_metadata id k v).metadata_entries.filter
        (metaMatch id (findOrAddString s.metadata_keys k).2) =
      [⟨(findOrAddString s.metadata_keys k).2,
        (findOrAddString s.metadata_values v).2, id⟩] ∧
    ((s.set_object_metadata id k v).get_object_base id).isSome = true := by
  obtain ⟨b, hb⟩ := Option.isSome_iff_exists.mp hbase
  unfold ObjectStorage.set_object_metadata
  rw [hb]
  simp only [ObjectStorage.find_or_add_key, ObjectStorage.find_or_add_value]
  rcases Nat.le_one_iff_eq_zero_or_eq_one.mp huniq with h0 | h1
  · rw [updateMetadataValue_none _ _ _ _ h0]
    simp only [Bool.false_eq_true, if_false]
    obtain ⟨m1, m2, m3⟩ := modify_object_base_meta
      { s with
        metadata_keys := (findOrAddString s.metadata_keys k).1,
        metadata_values := (findOrAddString s.metadata_values v).1,
        metadata_entries := s.metadata_entries ++
          [⟨(findOrAddString s.metadata_keys k).2,
            (findOrAddString s.metadata_values v).2, id⟩] }
      id (fun b => { b with flags := b.flags.set_metadata true })
    rw [m1, m2, m3]
    refine ⟨rfl, rfl, ?_, ?_⟩
    · rw [List.filter_append]
      have hnil : s.metadata_entries.filter
          (metaMatch id (findOrAddString s.metadata_keys k).2) = [] := by
        rw [List.filter_eq_nil_iff]
        exact List.countP_eq_zero.mp h0
      rw [hnil]
      simp [metaMatch]
    · rw [modify_object_base_isSome]
      have hmeta : ∀ (me : List MetadataEntry) (mk2 mv : List String),
          (({ s with metadata_entries := me, metadata_keys := mk2, metadata_values := mv } : ObjectStorage).get_object_base id).isSome = true := by
        intro me mk2 mv
        rw [get_object_base_congr s
          { s with metadata_entries := me, metadata_keys := mk2, metadata_values := mv }
          id rfl rfl rfl rfl rfl rfl rfl rfl rfl rfl]
        exact hbase
      exact hmeta _ _ _
  · obtain ⟨u2, ufil⟩ := updateMetadataValue_one s.metadata_entries id
      (findOrAddString s.metadata_keys k).2 (findOrAddString s.metadata_values v).2 h1
    have hmeta : ∀ (me : List MetadataEntry) (mk2 mv : List String),
        (({ s with metadata_entries := me, metadata_keys := mk2, metadata_values := mv } : ObjectStorage).get_object_base id).isSome = true := by
      intro me mk2 mv
      rw [get_object_base_congr s
        { s with metadata_entries := me, metadata_keys := mk2, metadata_values := mv }
        id rfl rfl rfl rfl rfl rfl rfl rfl rfl rfl]
      exact hbase
    rw [u2, if_pos rfl]
    exact ⟨rfl, rfl, ufil, hmeta _ _ _⟩

/-- C8: For every owner handle that resolves to a record and every key,
setting that owner's metadata for the same key twice (value v1 then value v2)
leaves exactly one metadata entry for the (owner, key) pair, and that entry
resolves to v2: the second write updates the existing entry in place.  The
hypothesis that the pair occurs at most once initially is the data-model
invariant maintained by the API (set_object_metadata never creates a second
entry for a pair). -/
theorem c8_metadata_last_write_wins (s : ObjectStorage) (id : ObjectID)
    (k v1 v2 : String)
    (hbase : (s.get_object_base id).isSome = true)
    (huniq : s.metadata_entries.countP
        (metaMatch id (findOrAddString s.metadata_keys k).2) ≤ 1) :
    (((s.set_object_metadata id k v1).set_object_metadata id k v2).metadata_entries.filter
        (metaMatch id (findOrAddString s.metadata_keys k).2)).map
      (fun e => ((s.set_object_metadata id k v1).set_object_metadata id
          k v2).metadata_values.getD e.value_index "") = [v2] := by
  obtain ⟨hk1, hv1, hf1, hb1⟩ := set_object_metadata_spec s id k v1 hbase huniq
  have hkidx : (findOrAddString (s.set_object_metadata id k v1).metadata_keys k).2 =
      (findOrAddString s.metadata_keys k).2 := by
    rw [hk1, findOrAddString_idem]
  have huniq1 : (s.set_object_metadata id k v1).metadata_entries.countP
      (metaMatch id
        (findOrAddString (s.set_object_metadata id k v1).metadata_keys k).2) ≤ 1 := by
    rw [hkidx, List.countP_eq_length_filter, hf1]
    simp
  obtain ⟨hk2, hv2, hf2, hb2⟩ :=
    set_object_metadata_spec (s.set_object_metadata id k v1) id k v2 hb1 huniq1
  rw [hkidx] at hf2
  rw [hf2, List.map_cons, List.map_nil, hv2]
  have hres := findOrAddString_get (s.set_object_metadata id k v1).metadata_values v2
  simp only [List.getD_eq_get?, hres, Option.getD_some]

/-- Witness for C8: one circle, key "role", values "old" then "new". -/
theorem c8_metadata_last_write_wins_witness :
    ((({ circles := [CompactCircle.init 1 2 3] } : ObjectStorage).get_object_base
        (ObjectStorage.make_id .Circle 0)).isSome = true) ∧
    (({ circles := [CompactCircle.init 1 2 3] } : ObjectStorage).metadata_entries.countP
        (metaMatch (ObjectStorage.make_id .Circle 0)
          (findOrAddString ({ circles := [CompactCircle.init 1 2 3] } :
            ObjectStorage).metadata_keys "role").2) ≤ 1) ∧
    (((({ circles := [CompactCircle.init 1 2 3] } : ObjectStorage).set_object_metadata
          (ObjectStorage.make_id .Circle 0) "role" "old").set_object_metadata
          (ObjectStorage.make_id .Circle 0) "role" "new").metadata_entries.filter
        (metaMatch (ObjectStorage.make_id .Circle 0)
          (findOrAddString ({ circles := [CompactCircle.init 1 2 3] } :
            ObjectStorage).metadata_keys "role").2)).map
      (fun e => ((({ circles := [CompactCircle.init 1 2 3] } :
          ObjectStorage).set_object_metadata
            (ObjectStorage.make_id .Circle 0) "role" "old").set_object_metadata
            (ObjectStorage.make_id .Circle 0) "role" "new").metadata_values.getD
          e.value_index "") = ["new"] := by
  refine ⟨by decide, by decide, ?_⟩
  exact c8_metadata_last_write_wins { circles := [CompactCircle.init 1 2 3] }
    (ObjectStorage.make_id .Circle 0) "role" "old" "new" (by decide) (by decide)

/-- Translate every record among the first count of a table, the net effect of
the SSE kernels translate_circles_simd / translate_rectangles_simd: the source
processes indices 0..count-1 in groups of four lanes plus a scalar remainder
loop, applying exactly one elementwise add per record, which is this map. -/
def mapPrefix {α : Type} (f : α → α) : List α → ℕ → List α
  | [], _ => []
  | l, 0 => l
  | c :: rest, n + 1 => f c :: mapPrefix f rest n

/-- The scalar per-index loop of translate_objects (also the non-SSE fallback):
for each selected index in order, bounds-check it and update that record. -/
def applyAtIndices {α : Type} (f : α → α) (init : List α) (idxs : List ℕ) :
    List α :=
  idxs.foldl (fun l idx => if idx < l.length then modifyAt l idx f else l) init

/-- simd::translate_circles_simd: translates the first count circle records of
the table (it receives only a count, not the selected indices). -/
def translate_circles_simd (circles : List CompactCircle) (count : ℕ)
    (dx dy : ℚ) : List CompactCircle :=
  mapPrefix (fun c => { c with x := c.x + dx, y := c.y + dy }) circles count

/-- simd::translate_rectangles_simd: same shape for rectangles. -/
def translate_rectangles_simd (rects : List CompactRectangle) (count : ℕ)
    (dx dy : ℚ) : List CompactRectangle :=
  mapPrefix (fun r => { r with x := r.x + dx, y := r.y + dy }) rects count

/-- The grouping pass of BatchOperations::translate_objects: circle indices of
the handle list, in order. -/
def circleIndices (ids : List ObjectID) : List ℕ :=
  ids.filterMap (fun id =>
    if ObjectStorage.get_type id = ObjectType.Circle
    then some (ObjectStorage.get_index id) else none)

/-- Rectangle indices of the handle list, in order. -/
def rectIndices (ids : List ObjectID) : List ℕ :=
  ids.filterMap (fun id =>
    if ObjectStorage.get_type id = ObjectType.Rectangle
    then some (ObjectStorage.get_index id) else none)

/-- Line indices of the handle list, in order. -/
def lineIndices (ids : List ObjectID) : List ℕ :=
  ids.filterMap (fun id =>
    if ObjectStorage.get_type id = ObjectType.Line
    then some (ObjectStorage.get_index id) else none)

/-- BatchOperations::translate_objects as compiled with __SSE2__ (the
vectorized path): handles are grouped by kind, then the circle and rectangle
groups are handed to the SIMD kernels as a COUNT only, so the kernels
translate the first count records of each table; lines are translated by the
per-index scalar loop.  Timing statistics are omitted. -/
def BatchOperations.translate_objects (s : ObjectStorage) (ids : List ObjectID)
    (dx dy : ℚ) : ObjectStorage :=
  let circle_indices := circleIndices ids
  let rect_indices := rectIndices ids
  let line_indices := lineIndices ids
  { s with
    circles :=
      if circle_indices ≠ [] then
        translate_circles_simd s.circles circle_indices.length dx dy
      else s.circles,
    rectangles :=
      if rect_indices ≠ [] then
        translate_rectangles_simd s.rectangles rect_indices.length dx dy
      else s.rectangles,
    lines := applyAtIndices
      (fun l => { l with x1 := l.x1 + dx, y1 := l.y1 + dy,
                         x2 := l.x2 + dx, y2 := l.y2 + dy })
      s.lines line_indices }

/-- The naive scalar reference: translate exactly the records named by the
handle list, one bounds-checked update per selected index (this is also the
non-SSE fallback branch of translate_objects). -/
def BatchOperations.translate_objects_scalar (s : ObjectStorage)
    (ids : List ObjectID) (dx dy : ℚ) : ObjectStorage :=
  { s with
    circles := applyAtIndices
      (fun c => { c with x := c.x + dx, y := c.y + dy })
      s.circles (circleIndices ids),
    rectangles := applyAtIndices
      (fun r => { r with x := r.x + dx, y := r.y + dy })
      s.rectangles (rectIndices ids),
    lines := applyAtIndices
      (fun l => { l with x1 := l.x1 + dx, y1 := l.y1 + dy,
                         x2 := l.x2 + dx, y2 := l.y2 + dy })
      s.lines (lineIndices ids) }

/-- Element lookup after mapPrefix. -/
theorem mapPrefix_getElem? {α : Type} (f : α → α) (l : List α) (k j : ℕ) :
    (mapPrefix f l k)[j]? = if j < k then l[j]?.map f else l[j]? := by
  induction l generalizing k j with
  | nil => cases k <;> simp [mapPrefix]
  | cons c rest ih =>
    cases k with
    | zero => simp [mapPrefix]
    | succ n =>
      cases j with
      | zero => simp [mapPrefix]
      | succ m =>
        simp only [mapPrefix, List.getElem?_cons_succ]
        rw [ih]
        by_cases hmn : m < n <;> simp [hmn, Nat.succ_lt_succ_iff]

/-- The scalar loop preserves the table length. -/
theorem applyAtIndices_length {α : Type} (f : α → α) (l : List α)
    (idxs : List ℕ) : (applyAtIndices f l idxs).length = l.length := by
  induction idxs generalizing l with
  | nil => rfl
  | cons i rest ih =>
    unfold applyAtIndices at ih ⊢
    rw [List.foldl_cons]
    by_cases hi : i < l.length
    · rw [if_pos hi, ih, modifyAt_length]
    · rw [if_neg hi, ih]

/-- Element lookup after the scalar loop over the index list 0..k-1. -/
theorem applyAtIndices_range_getElem? {α : Type} (f : α → α) (l : List α)
    (k : ℕ) (hk : k ≤ l.length) (j : ℕ) :
    (applyAtIndices f l (List.range k))[j]? =
      if j < k then l[j]?.map f else l[j]? := by
  induction k with
  | zero => simp [applyAtIndices]
  | succ n ih =>
    have hn : n ≤ l.length := Nat.le_of_succ_le hk
    have hstep : applyAtIndices f l (List.range (n + 1)) =
        (if n < (applyAtIndices f l (List.range n)).length
         then modifyAt (applyAtIndices f l (List.range n)) n f
         else applyAtIndices f l (List.range n)) := by
      unfold applyAtIndices
      rw [List.range_succ, List.foldl_append, List.foldl_cons, List.foldl_nil]
    rw [hstep, if_pos (by rw [applyAtIndices_length]; omega)]
    rw [modifyAt_getElem?]
    by_cases hj : j = n
    · subst hj
      rw [if_pos rfl, ih hn, if_neg (by omega), if_pos (by omega)]
    · rw [if_neg hj, ih hn]
      by_cases hjn : j < n
      · rw [if_pos hjn, if_pos (by omega)]
      · rw [if_neg hjn, if_neg (by omega)]

/-- On a full prefix of selected indices the scalar loop and the prefix map
coincide. -/
theorem applyAtIndices_range_eq_mapPrefix {α : Type} (f : α → α) (l : List α)
    (k : ℕ) (hk : k ≤ l.length) :
    applyAtIndices f l (List.range k) = mapPrefix f l k := by
  apply List.ext_getElem?
  intro j
  rw [applyAtIndices_range_getElem? f l k hk j, mapPrefix_getElem?]

/-- C4 counterexample: for the handle list [circle 1] over a two-circle table,
the vectorized path translates the first table record (index 0) instead of
the selected record (index 1), so the two paths do not agree. -/
theorem c4_simd_scalar_counterexample :
    (BatchOperations.translate_objects
        { circles := [CompactCircle.init 0 0 1, CompactCircle.init 10 10 1] }
        [ObjectStorage.make_id .Circle 1] 1 1).circles =
      [CompactCircle.init 1 1 1, CompactCircle.init 10 10 1] ∧
    (BatchOperations.translate_objects_scalar
        { circles := [CompactCircle.init 0 0 1, CompactCircle.init 10 10 1] }
        [ObjectStorage.make_id .Circle 1] 1 1).circles =
      [CompactCircle.init 0 0 1, CompactCircle.init 11 11 1] ∧
    BatchOperations.translate_objects
        { circles := [CompactCircle.init 0 0 1, CompactCircle.init 10 10 1] }
        [ObjectStorage.make_id .Circle 1] 1 1 ≠
      BatchOperations.translate_objects_scalar
        { circles := [CompactCircle.init 0 0 1, CompactCircle.init 10 10 1] }
        [ObjectStorage.make_id .Circle 1] 1 1 := by
  have hty : ObjectStorage.get_type (ObjectStorage.make_id .Circle 1) = .Circle := by
    decide
  have hidx : ObjectStorage.get_index (ObjectStorage.make_id .Circle 1) = 1 := by
    decide
  have h1 : (BatchOperations.translate_objects
      { circles := [CompactCircle.init 0 0 1, CompactCircle.init 10 10 1] }
      [ObjectStorage.make_id .Circle 1] 1 1).circles =
      [CompactCircle.init 1 1 1, CompactCircle.init 10 10 1] := by
    simp [BatchOperations.translate_objects, translate_circles_simd, mapPrefix,
      circleIndices, rectIndices, lineIndices, applyAtIndices, modifyAt,
      hty, hidx, CompactCircle.init, CompactObject.init]
  have h2 : (BatchOperations.translate_objects_scalar
      { circles := [CompactCircle.init 0 0 1, CompactCircle.init 10 10 1] }
      [ObjectStorage.make_id .Circle 1] 1 1).circles =
      [CompactCircle.init 0 0 1, CompactCircle.init 11 11 1] := by
    simp [BatchOperations.translate_objects_scalar, circleIndices, rectIndices,
      lineIndices, applyAtIndices, modifyAt, hty, hidx,
      CompactCircle.init, CompactObject.init]
    norm_num
  refine ⟨h1, h2, fun h => ?_⟩
  rw [congrArg ObjectStorage.circles h, h2] at h1
  simp [CompactCircle.init, CompactObject.init] at h1

/-- C4 amended: the vectorized path translates the first k circle records and
the first m rectangle records, where k and m are the counts of circle and
rectangle handles in the list; it produces bit-identical tables to the naive
per-index scalar loop precisely in the benchmark situation where the selected
circle indices are 0..k-1 in order and the selected rectangle indices are
0..m-1 in order (each table large enough). -/
theorem c4_simd_scalar_agree_on_prefix (s : ObjectStorage) (ids : List ObjectID)
    (dx dy : ℚ) (kc kr : ℕ)
    (hc : circleIndices ids = List.range kc) (hkc : kc ≤ s.circles.length)
    (hr : rectIndices ids = List.range kr) (hkr : kr ≤ s.rectangles.length) :
    BatchOperations.translate_objects s ids dx dy =
      BatchOperations.translate_objects_scalar s ids dx dy := by
  simp only [BatchOperations.translate_objects,
    BatchOperations.translate_objects_scalar]
  rw [hc, hr]
  have hcirc : (if List.range kc ≠ [] then
        translate_circles_simd s.circles (List.range kc).length dx dy
      else s.circles) =
      applyAtIndices (fun c => { c with x := c.x + dx, y := c.y + dy })
        s.circles (List.range kc) := by
    cases kc with
    | zero => simp [applyAtIndices]
    | succ n =>
      rw [if_pos (by simp [List.range_succ]), List.length_range]
      unfold translate_circles_simd
      rw [applyAtIndices_range_eq_mapPrefix _ _ _ hkc]
  have hrect : (if List.range kr ≠ [] then
        translate_rectangles_simd s.rectangles (List.range kr).length dx dy
      else s.rectangles) =
      applyAtIndices (fun r => { r with x := r.x + dx, y := r.y + dy })
        s.rectangles (List.range kr) := by
    cases kr with
    | zero => simp [applyAtIndices]
    | succ n =>
      rw [if_pos (by simp [List.range_succ]), List.length_range]
      unfold translate_rectangles_simd
      rw [applyAtIndices_range_eq_mapPrefix _ _ _ hkr]
  rw [hcirc, hrect]

/-- Witness for the C4 amended theorem: two circles selected as indices 0, 1. -/
theorem c4_simd_scalar_agree_witness :
    circleIndices [ObjectStorage.make_id .Circle 0, ObjectStorage.make_id .Circle 1] =
      List.range 2 ∧
    BatchOperations.translate_objects
        { circles := [CompactCircle.init 0 0 1, CompactCircle.init 10 10 1] }
        [ObjectStorage.make_id .Circle 0, ObjectStorage.make_id .Circle 1] 3 4 =
      BatchOperations.translate_objects_scalar
        { circles := [CompactCircle.init 0 0 1, CompactCircle.init 10 10 1] }
        [ObjectStorage.make_id .Circle 0, ObjectStorage.make_id .Circle 1] 3 4 := by
  refine ⟨by decide, ?_⟩
  exact c4_simd_scalar_agree_on_prefix
    { circles := [CompactCircle.init 0 0 1, CompactCircle.init 10 10 1] }
    [ObjectStorage.make_id .Circle 0, ObjectStorage.make_id .Circle 1] 3 4 2 0
    (by decide) (by decide) (by decide) (by decide)

/-- Oracle for the libm calls and the pi constant used by find_at_point: the
embedding is parametric in the transcendental functions, and each concrete
claim constrains the oracle only at the (exactly representable) points where
the source evaluates it. -/
structure GeomOracle where
  sqrt : ℚ → ℚ
  atan2 : ℚ → ℚ → ℚ
  cos : ℚ → ℚ
  sin : ℚ → ℚ
  pi : ℚ

/-- The normalize_angle lambda of the arc block: the unique fixed point of its
two while loops (add 2 pi while negative, subtract while at least 2 pi), which
for positive 2 pi is reduction into [0, 2 pi).  For a non-positive 2 pi the
source loops forever; that cannot arise for the real pi and the function is
left as the identity there. -/
def normalize_angle (pi a : ℚ) : ℚ :=
  if 0 < 2 * pi then a - 2 * pi * (⌊a / (2 * pi)⌋ : ℤ) else a

/-- Shared shape of every block of find_at_point / find_in_rect: scan one
typed table, keep the handles of the records satisfying the block's
condition, in index order. -/
def kindHits {β : Type} (K : ObjectType) (l : List β) (C : ℕ → β → Prop)
    [∀ i b, Decidable (C i b)] : List ObjectID :=
  l.enum.filterMap (fun x => if C x.1 x.2 then some (ObjectStorage.make_id K x.1) else none)

/-- Circle block of find_at_point: annulus (ring) test on squared distance. -/
abbrev circleHitCond (p : Point) (tolerance : ℚ) (c : CompactCircle) : Prop :=
  let dx := p.x - c.x
  let dy := p.y - c.y
  let dist_sq := dx * dx + dy * dy
  let radius_outer := c.radius + tolerance
  let radius_inner := max 0 (c.radius - tolerance)
  dist_sq ≤ radius_outer * radius_outer ∧ dist_sq ≥ radius_inner * radius_inner

/-- Rectangle block of find_at_point: inside the tolerance-expanded box, and
near an edge or strictly inside. -/
abbrev rectangleHitCond (p : Point) (tolerance : ℚ) (r : CompactRectangle) : Prop :=
  let expanded : BoundingBox :=
    ⟨r.x - tolerance, r.y - tolerance,
     r.x + r.width + tolerance, r.y + r.height + tolerance⟩
  expanded.contains p = true ∧
  ((p.x ≤ r.x + tolerance ∨ p.x ≥ r.x + r.width - tolerance ∨
    p.y ≤ r.y + tolerance ∨ p.y ≥ r.y + r.height - tolerance) ∨
   (p.x ≥ r.x ∧ p.x ≤ r.x + r.width ∧ p.y ≥ r.y ∧ p.y ≤ r.y + r.height))

/-- Line block of find_at_point: clamped-projection point-to-segment distance
within tolerance (degenerate zero-length lines are never hits). -/
abbrev lineHitCond (p : Point) (tolerance : ℚ) (l : CompactLine) : Prop :=
  let dx := l.x2 - l.x1
  let dy := l.y2 - l.y1
  let len_sq := dx * dx + dy * dy
  let t := max 0 (min (((p.x - l.x1) * dx + (p.y - l.y1) * dy) / len_sq) 1)
  let px := l.x1 + t * dx
  let py := l.y1 + t * dy
  len_sq > 0 ∧ (p.x - px) * (p.x - px) + (p.y - py) * (p.y - py) ≤ tolerance * tolerance

/-- Ellipse block of find_at_point: rotate the query point into the local
frame, then an inner/outer annulus test. -/
abbrev ellipseHitCond (o : GeomOracle) (p : Point) (tolerance : ℚ)
    (e : CompactEllipse) : Prop :=
  let cos_rot := o.cos (-e.rotation)
  let sin_rot := o.sin (-e.rotation)
  let dx := p.x - e.x
  let dy := p.y - e.y
  let local_x := dx * cos_rot - dy * sin_rot
  let local_y := dx * sin_rot + dy * cos_rot
  let rx_outer := e.rx + tolerance
  let ry_outer := e.ry + tolerance
  let rx_inner := max 0 (e.rx - tolerance)
  let ry_inner := max 0 (e.ry - tolerance)
  local_x * local_x / (rx_outer * rx_outer) + local_y * local_y / (ry_outer * ry_outer) ≤ 1 ∧
  (rx_inner = 0 ∨ ry_inner = 0 ∨
   local_x * local_x / (rx_inner * rx_inner) + local_y * local_y / (ry_inner * ry_inner) ≥ 1)

/-- Polyline block of find_at_point: valid point slice, at least two points,
and some segment within tolerance (the source breaks at the first hit). -/
abbrev polylineHitCond (s : ObjectStorage) (p : Point) (tolerance : ℚ)
    (pl : CompactPolyline) : Prop :=
  pl.point_offset + pl.point_count ≤ s.polyline_points.length ∧
  pl.point_count ≥ 2 ∧
  ∃ j ∈ List.range (pl.point_count - 1),
    let a := s.polyline_points.getD (pl.point_offset + j) default
    let b := s.polyline_points.getD (pl.point_offset + j + 1) default
    let dx := b.x - a.x
    let dy := b.y - a.y
    let len_sq := dx * dx + dy * dy
    let t := max 0 (min (((p.x - a.x) * dx + (p.y - a.y) * dy) / len_sq) 1)
    let px := a.x + t * dx
    let py := a.y + t * dy
    len_sq > 0 ∧ (p.x - px) * (p.x - px) + (p.y - py) * (p.y - py) ≤ tolerance * tolerance

/-- Arc block of find_at_point: ring distance test, then the normalized angle
must lie in the arc's range, where a range with start above end wraps through
zero and is the union [start, 2 pi) with [0, end]. -/
abbrev arcHitCond (o : GeomOracle) (p : Point) (tolerance : ℚ)
    (a : CompactArc) : Prop :=
  let dx := p.x - a.x
  let dy := p.y - a.y
  let dist := o.sqrt (dx * dx + dy * dy)
  let angle := normalize_angle o.pi (o.atan2 dy dx)
  let start := normalize_angle o.pi a.start_angle
  let e := normalize_angle o.pi a.end_angle
  |dist - a.radius| ≤ tolerance ∧
  (if start ≤ e then angle ≥ start ∧ angle ≤ e else angle ≥ start ∨ angle ≤ e)

/-- Text block of find_at_point: tolerance-expanded estimated bounding box. -/
abbrev textHitCond (p : Point) (tolerance : ℚ) (t : CompactText) : Prop :=
  let bbox := t.get_bounding_box
  (BoundingBox.contains
    ⟨bbox.min_x - tolerance, bbox.min_y - tolerance,
     bbox.max_x + tolerance, bbox.max_y + tolerance⟩ p) = true

/-- CompactPath::calculate_bbox: walk the segment slice tracking a current
point, expanding the box by every control and end point; Close adds nothing.
Out-of-range vector accesses, unchecked in the source, read defaults here. -/
def CompactPath.calculate_bbox (path : CompactPath) (segments : List PathSegment)
    (params : List ℚ) : BoundingBox :=
  ((List.range path.segment_count).foldl (fun st i =>
    let seg := segments.getD (path.segment_offset + i) default
    let par := fun k => params.getD (seg.param_offset + k) 0
    match st with
    | (bbox, cx, cy, has_points) =>
      match seg.cmd with
      | .MoveTo =>
        if has_points then (bbox.expandPoint ⟨par 0, par 1⟩, par 0, par 1, true)
        else ((⟨par 0, par 1, par 0, par 1⟩ : BoundingBox), par 0, par 1, true)
      | .LineTo => (bbox.expandPoint ⟨par 0, par 1⟩, par 0, par 1, has_points)
      | .CurveTo =>
        (((bbox.expandPoint ⟨par 0, par 1⟩).expandPoint ⟨par 2, par 3⟩).expandPoint
          ⟨par 4, par 5⟩, par 4, par 5, has_points)
      | .QuadTo =>
        ((bbox.expandPoint ⟨par 0, par 1⟩).expandPoint ⟨par 2, par 3⟩,
         par 2, par 3, has_points)
      | .ArcTo => (bbox.expandPoint ⟨par 5, par 6⟩, par 5, par 6, has_points)
      | .Close => (bbox, cx, cy, has_points))
    ((default : BoundingBox), 0, 0, false)).1

/-- Path block of find_at_point: tolerance-expanded path bounding box. -/
abbrev pathHitCond (s : ObjectStorage) (p : Point) (tolerance : ℚ)
    (path : CompactPath) : Prop :=
  let bbox := path.calculate_bbox s.path_segments s.path_parameters
  (BoundingBox.contains
    ⟨bbox.min_x - tolerance, bbox.min_y - tolerance,
     bbox.max_x + tolerance, bbox.max_y + tolerance⟩ p) = true

/-- Min/max bounding box of a polygon's point slice, as computed inline by
find_in_rect and the group box: none when the slice is stale or empty. -/
def polygonSliceBBox (s : ObjectStorage) (poly : CompactPolygon) :
    Option BoundingBox :=
  if poly.point_offset + poly.point_count ≤ s.polygon_points.length ∧
      poly.point_count > 0 then
    let p0 := s.polygon_points.getD poly.point_offset default
    some ((List.range (poly.point_count - 1)).foldl (fun bb j =>
      bb.expandPoint (s.polygon_points.getD (poly.point_offset + j + 1) default))
      ⟨p0.x, p0.y, p0.x, p0.y⟩)
  else none

/-- Same for a polyline's point slice. -/
def polylineSliceBBox (s : ObjectStorage) (pl : CompactPolyline) :
    Option BoundingBox :=
  if pl.point_offset + pl.point_count ≤ s.polyline_points.length ∧
      pl.point_count > 0 then
    let p0 := s.polyline_points.getD pl.point_offset default
    some ((List.range (pl.point_count - 1)).foldl (fun bb j =>
      bb.expandPoint (s.polyline_points.getD (pl.point_offset + j + 1) default))
      ⟨p0.x, p0.y, p0.x, p0.y⟩)
  else none

/-- CompactGroup::calculate_bbox: union of the children's boxes, resolved
through the same per-kind dispatch, recursing into child groups.  The source
recursion is unbounded (cycles are undefined behaviour, prevented by the
facade); fuel bounds the recursion here and any fuel at least the nesting
depth yields the source's value on acyclic data. -/
def groupBBoxAux (s : ObjectStorage) (children : List ObjectID) :
    ℕ → CompactGroup → BoundingBox
  | fuel, g =>
    if g.child_count > 0 ∧ g.child_offset + g.child_count ≤ children.length then
      ((List.range g.child_count).foldl (fun st i =>
        let cid := children.getD (g.child_offset + i) 0
        let cidx := ObjectStorage.get_index cid
        let cb : Option BoundingBox :=
          match ObjectStorage.get_type cid with
          | .Circle => (s.circles.get? cidx).map CompactCircle.get_bounding_box
          | .Rectangle => (s.rectangles.get? cidx).map CompactRectangle.get_bounding_box
          | .Line => (s.lines.get? cidx).map CompactLine.get_bounding_box
          | .Ellipse => (s.ellipses.get? cidx).map CompactEllipse.get_bounding_box
          | .Polygon => (s.polygons.get? cidx).bind (polygonSliceBBox s)
          | .Polyline => (s.polylines.get? cidx).bind (polylineSliceBBox s)
          | .Arc => (s.arcs.get? cidx).map CompactArc.get_bounding_box
          | .Text => (s.texts.get? cidx).map CompactText.get_bounding_box
          | .Path => (s.paths.get? cidx).map
              (fun pa => pa.calculate_bbox s.path_segments s.path_parameters)
          | .Group => (s.groups.get? cidx).map (fun cg =>
              match fuel with
              | 0 => (default : BoundingBox)
              | n + 1 => groupBBoxAux s children n cg)
          | _ => none
        match cb with
        | none => st
        | some cbb => if st.2 then (st.1.expandBox cbb, true) else (cbb, true))
        ((default : BoundingBox), false)).1
    else default

/-- Group block of find_at_point: tolerance-expanded recursive union box. -/
abbrev groupHitCond (fuel : ℕ) (s : ObjectStorage) (p : Point) (tolerance : ℚ)
    (g : CompactGroup) : Prop :=
  let bbox := groupBBoxAux s s.group_children fuel g
  (BoundingBox.contains
    ⟨bbox.min_x - tolerance, bbox.min_y - tolerance,
     bbox.max_x + tolerance, bbox.max_y + tolerance⟩ p) = true

/-- ObjectStorage::find_at_point: one block per shape kind, in source order.
There is no polygon block in the source; polygons are never reported. -/
def ObjectStorage.find_at_point (o : GeomOracle) (fuel : ℕ) (s : ObjectStorage)
    (p : Point) (tolerance : ℚ) : List ObjectID :=
  kindHits .Circle s.circles (fun _ c => circleHitCond p tolerance c) ++
  kindHits .Rectangle s.rectangles (fun _ r => rectangleHitCond p tolerance r) ++
  kindHits .Line s.lines (fun _ l => lineHitCond p tolerance l) ++
  kindHits .Ellipse s.ellipses (fun _ e => ellipseHitCond o p tolerance e) ++
  kindHits .Polyline s.polylines (fun _ pl => polylineHitCond s p tolerance pl) ++
  kindHits .Arc s.arcs (fun _ a => arcHitCond o p tolerance a) ++
  kindHits .Text s.texts (fun _ t => textHitCond p tolerance t) ++
  kindHits .Path s.paths (fun _ pa => pathHitCond s p tolerance pa) ++
  kindHits .Group s.groups (fun _ g => groupHitCond fuel s p tolerance g)

/-- ObjectStorage::find_in_rect: rectangle-overlap test of every record's
bounding box, every table in source order. -/
def ObjectStorage.find_in_rect (fuel : ℕ) (s : ObjectStorage)
    (rect : BoundingBox) : List ObjectID :=
  kindHits .Circle s.circles
    (fun _ c => rect.intersects c.get_bounding_box = true) ++
  kindHits .Rectangle s.rectangles
    (fun _ r => rect.intersects r.get_bounding_box = true) ++
  kindHits .Line s.lines
    (fun _ l => rect.intersects l.get_bounding_box = true) ++
  kindHits .Ellipse s.ellipses
    (fun _ e => rect.intersects e.get_bounding_box = true) ++
  kindHits .Polygon s.polygons
    (fun _ poly => ((polygonSliceBBox s poly).map rect.intersects).getD false = true) ++
  kindHits .Polyline s.polylines
    (fun _ pl => ((polylineSliceBBox s pl).map rect.intersects).getD false = true) ++
  kindHits .Arc s.arcs
    (fun _ a => rect.intersects a.get_bounding_box = true) ++
  kindHits .Text s.texts
    (fun _ t => rect.intersects t.get_bounding_box = true) ++
  kindHits .Path s.paths
    (fun _ pa => rect.intersects (pa.calculate_bbox s.path_segments s.path_parameters) = true) ++
  kindHits .Group s.groups
    (fun _ g => rect.intersects (groupBBoxAux s s.group_children fuel g) = true)

/-- Every handle produced by a block carries that block's kind tag. -/
theorem kindHits_get_type {β : Type} (K : ObjectType) (l : List β)
    (C : ℕ → β → Prop) [∀ i b, Decidable (C i b)] (id : ObjectID)
    (h : id ∈ kindHits K l C) : ObjectStorage.get_type id = K := by
  unfold kindHits at h
  obtain ⟨a, _, hfa⟩ := List.mem_filterMap.mp h
  by_cases hC : C a.1 a.2
  · rw [if_pos hC] at hfa
    rw [← Option.some.inj hfa]
    exact ObjectStorage.get_type_make_id K a.1
  · rw [if_neg hC] at hfa
    cases hfa

/-- C10 counterexample: a storage holding one triangle polygon whose boundary
passes through (5, 0); find_at_point there with tolerance 1 returns nothing at
all — the polygon's handle does not appear because find_at_point has no
polygon block. -/
theorem c10_polygon_not_hit_counterexample :
    ({ polygons := [CompactPolygon.init 0 3],
       polygon_points := [⟨0, 0⟩, ⟨10, 0⟩, ⟨10, 10⟩] } :
        ObjectStorage).find_at_point
      ⟨fun _ => 0, fun _ _ => 0, fun _ => 0, fun _ => 0, 0⟩ 0 ⟨5, 0⟩ 1 = [] := by
  simp [ObjectStorage.find_at_point, kindHits]

/-- C10 amended: find_at_point dispatches across all shape kinds except
Polygon — no handle it returns ever carries the Polygon kind, for any oracle,
fuel, storage, query point and tolerance. -/
theorem c10_find_at_point_never_polygon (o : GeomOracle) (fuel : ℕ)
    (s : ObjectStorage) (p : Point) (tolerance : ℚ) (id : ObjectID)
    (h : id ∈ s.find_at_point o fuel p tolerance) :
    ObjectStorage.get_type id ≠ ObjectType.Polygon := by
  unfold ObjectStorage.find_at_point at h
  simp only [List.mem_append] at h
  rcases h with ((((((((h | h) | h) | h) | h) | h) | h) | h) | h) <;>
    rw [kindHits_get_type _ _ _ _ h] <;> decide

/-- Witness for the C10 amended theorem: a circle hit at (150, 100). -/
theorem c10_find_at_point_never_polygon_witness :
    (ObjectStorage.make_id .Circle 0 ∈
      ({ circles := [CompactCircle.init 100 100 50] } : ObjectStorage).find_at_point
        ⟨fun _ => 0, fun _ _ => 0, fun _ => 0, fun _ => 0, 0⟩ 0 ⟨150, 100⟩ 1) ∧
    ObjectStorage.get_type (ObjectStorage.make_id .Circle 0) ≠ ObjectType.Polygon := by
  have hmem : ObjectStorage.make_id .Circle 0 ∈
      ({ circles := [CompactCircle.init 100 100 50] } : ObjectStorage).find_at_point
        ⟨fun _ => 0, fun _ _ => 0, fun _ => 0, fun _ => 0, 0⟩ 0 ⟨150, 100⟩ 1 := by
    simp [ObjectStorage.find_at_point, kindHits, circleHitCond, CompactCircle.init]
    norm_num
  exact ⟨hmem, c10_find_at_point_never_polygon _ _ _ _ _ _ hmem⟩

/-- C7: the circle ring test excludes the interior — for a circle at
(100, 100) with radius 50, the center is not a hit at tolerance 1 while
(150, 100) on the contour is; and find_in_rect over [0, 0, 200, 200] on a
scene with circles at (50, 50, r 25) and (500, 500, r 25) returns exactly the
first circle's handle.  The oracle and group-recursion fuel are irrelevant
(no ellipse, arc or group records take part). -/
theorem c7_circle_ring_and_rect_query (o : GeomOracle) (fuel : ℕ) :
    (ObjectStorage.make_id .Circle 0 ∉
      ({ circles := [CompactCircle.init 100 100 50] } : ObjectStorage).find_at_point
        o fuel ⟨100, 100⟩ 1) ∧
    (ObjectStorage.make_id .Circle 0 ∈
      ({ circles := [CompactCircle.init 100 100 50] } : ObjectStorage).find_at_point
        o fuel ⟨150, 100⟩ 1) ∧
    ({ circles := [CompactCircle.init 50 50 25, CompactCircle.init 500 500 25] } :
        ObjectStorage).find_in_rect fuel ⟨0, 0, 200, 200⟩ =
      [ObjectStorage.make_id .Circle 0] := by
  refine ⟨?_, ?_, ?_⟩
  · simp [ObjectStorage.find_at_point, kindHits, circleHitCond, CompactCircle.init]
  · simp [ObjectStorage.find_at_point, kindHits, circleHitCond, CompactCircle.init]
    norm_num
  · norm_num [ObjectStorage.find_in_rect, kindHits, CompactCircle.init,
      CompactCircle.get_bounding_box, BoundingBox.intersects,
      List.enum, List.enumFrom, List.filterMap_cons]

/-- Arithmetic fact: the normalization loop leaves 0 unchanged. -/
theorem normalize_angle_zero (pi : ℚ) (hpi : 0 < pi) :
    normalize_angle pi 0 = 0 := by
  have h2pi : (0 : ℚ) < 2 * pi := by linarith
  simp [normalize_angle, h2pi]

/-- For an angle already in [0, 2 pi) the normalization loop is the
identity. -/
theorem normalize_angle_of_mem (pi a : ℚ) (hpi : 0 < pi) (h0 : 0 ≤ a)
    (h2 : a < 2 * pi) : normalize_angle pi a = a := by
  have h2pi : 0 < 2 * pi := by linarith
  unfold normalize_angle
  rw [if_pos h2pi]
  have hfl : ⌊a / (2 * pi)⌋ = 0 := by
    rw [Int.floor_eq_zero_iff]
    constructor
    · positivity
    · rw [div_lt_one h2pi]
      exact h2
  rw [hfl]
  push_cast
  ring

/-- C6: an arc centered at the origin with radius 10 whose angles are the
radian equivalents of 350 and 10 degrees (350 pi / 180 and 10 pi / 180): with
tolerance 1 find_at_point reports a hit at the arc point at angle 0 degrees,
(10, 0), because the wrapped range is treated as the union of [start, 2 pi)
and [0, end], and reports no hit at the point at angle 180 degrees, (-10, 0).
Stated for every oracle that is exact at the three evaluation points the
source uses (sqrt 100, atan2 at the two axis points) with a positive pi. -/
theorem c6_arc_wraparound (o : GeomOracle) (fuel : ℕ)
    (hpi : 0 < o.pi)
    (hsqrt : o.sqrt 100 = 10)
    (hat0 : o.atan2 0 10 = 0)
    (hat180 : o.atan2 0 (-10) = o.pi) :
    (ObjectStorage.make_id .Arc 0 ∈
      ({ arcs := [CompactArc.init 0 0 10 (350 * o.pi / 180) (10 * o.pi / 180)] } :
        ObjectStorage).find_at_point o fuel ⟨10, 0⟩ 1) ∧
    (ObjectStorage.make_id .Arc 0 ∉
      ({ arcs := [CompactArc.init 0 0 10 (350 * o.pi / 180) (10 * o.pi / 180)] } :
        ObjectStorage).find_at_point o fuel ⟨-10, 0⟩ 1) := by
  have hnS : normalize_angle o.pi (350 * o.pi / 180) = 350 * o.pi / 180 := by
    apply normalize_angle_of_mem _ _ hpi (by positivity) (by linarith)
  have hnE : normalize_angle o.pi (10 * o.pi / 180) = 10 * o.pi / 180 := by
    apply normalize_angle_of_mem _ _ hpi (by positivity) (by linarith)
  have hnP : normalize_angle o.pi o.pi = o.pi := by
    apply normalize_angle_of_mem _ _ hpi (by positivity) (by linarith)
  have hno : ¬(350 * o.pi / 180 ≤ 10 * o.pi / 180) := by
    intro hcon
    nlinarith
  have hhit : arcHitCond o ⟨10, 0⟩ 1
      (CompactArc.init 0 0 10 (350 * o.pi / 180) (10 * o.pi / 180)) := by
    simp only [arcHitCond, CompactArc.init]
    norm_num
    rw [hsqrt, hat0, normalize_angle_zero _ hpi, hnS, hnE, if_neg hno]
    refine ⟨by norm_num, Or.inr (by positivity)⟩
  have hmiss : ¬ arcHitCond o ⟨-10, 0⟩ 1
      (CompactArc.init 0 0 10 (350 * o.pi / 180) (10 * o.pi / 180)) := by
    simp only [arcHitCond, CompactArc.init]
    norm_num
    rw [hsqrt, hat180, hnP, hnS, hnE, if_neg hno]
    intro _ hrange
    rcases hrange with hge | hle
    · nlinarith
    · nlinarith
  constructor
  · simp only [ObjectStorage.find_at_point, kindHits]
    simp
    exact hhit
  · simp only [ObjectStorage.find_at_point, kindHits]
    simpa using hmiss

/-- Witness for C6 at a concrete oracle that matches the real functions at
the three evaluation points (pi stands in as 3). -/
theorem c6_arc_wraparound_witness :
    (0 < (⟨fun _ => 10, fun _ x => if x < 0 then 3 else 0, fun _ => 0, fun _ => 0, 3⟩ :
        GeomOracle).pi) ∧
    ((⟨fun _ => 10, fun _ x => if x < 0 then 3 else 0, fun _ => 0, fun _ => 0, 3⟩ :
        GeomOracle).sqrt 100 = 10) ∧
    ((⟨fun _ => 10, fun _ x => if x < 0 then 3 else 0, fun _ => 0, fun _ => 0, 3⟩ :
        GeomOracle).atan2 0 10 = 0) ∧
    ((⟨fun _ => 10, fun _ x => if x < 0 then 3 else 0, fun _ => 0, fun _ => 0, 3⟩ :
        GeomOracle).atan2 0 (-10) =
      (⟨fun _ => 10, fun _ x => if x < 0 then 3 else 0, fun _ => 0, fun _ => 0, 3⟩ :
        GeomOracle).pi) ∧
    ((ObjectStorage.make_id .Arc 0 ∈
      ({ arcs := [CompactArc.init 0 0 10
          (350 * (⟨fun _ => 10, fun _ x => if x < 0 then 3 else 0, fun _ => 0,
            fun _ => 0, 3⟩ : GeomOracle).pi / 180)
          (10 * (⟨fun _ => 10, fun _ x => if x < 0 then 3 else 0, fun _ => 0,
            fun _ => 0, 3⟩ : GeomOracle).pi / 180)] } : ObjectStorage).find_at_point
        ⟨fun _ => 10, fun _ x => if x < 0 then 3 else 0, fun _ => 0, fun _ => 0, 3⟩
        0 ⟨10, 0⟩ 1) ∧
     (ObjectStorage.make_id .Arc 0 ∉
      ({ arcs := [CompactArc.init 0 0 10
          (350 * (⟨fun _ => 10, fun _ x => if x < 0 then 3 else 0, fun _ => 0,
            fun _ => 0, 3⟩ : GeomOracle).pi / 180)
          (10 * (⟨fun _ => 10, fun _ x => if x < 0 then 3 else 0, fun _ => 0,
            fun _ => 0, 3⟩ : GeomOracle).pi / 180)] } : ObjectStorage).find_at_point
        ⟨fun _ => 10, fun _ x => if x < 0 then 3 else 0, fun _ => 0, fun _ => 0, 3⟩
        0 ⟨-10, 0⟩ 1)) :=
  ⟨by norm_num, rfl, by norm_num, by norm_num,
   c6_arc_wraparound
     ⟨fun _ => 10, fun _ x => if x < 0 then 3 else 0, fun _ => 0, fun _ => 0, 3⟩ 0
     (by norm_num) rfl (by norm_num) (by norm_num)⟩

/-- One atom per contiguous fixed-width write of the binary codec: a plain
integer field, a float field, a color, a length-prefixed string, or one raw
record of a typed table.  A byte-level truncation that cuts an atom makes
exactly that read fail in the source, which is the same control flow as
truncating the stream before the atom, so prefix truncation of the atom list
models every byte truncation point of the serialized file. -/
inductive Atom where
  | u8 (n : ℕ)
  | u16 (n : ℕ)
  | u32 (n : ℕ)
  | f32 (q : ℚ)
  | boolByte (b : Bool)
  | color (c : Color)
  | str (s : String)
  | circleRec (c : CompactCircle)
  | rectangleRec (r : CompactRectangle)
  | lineRec (l : CompactLine)
  | ellipseRec (e : CompactEllipse)
  | polygonRec (p : CompactPolygon)
  | polylineRec (p : CompactPolyline)
  | arcRec (a : CompactArc)
  | textRec (t : CompactText)
  | pathRec (p : CompactPath)
  | groupRec (g : CompactGroup)
  | pointRec (p : Point)
  | segRec (s : PathSegment)
deriving DecidableEq, Repr

/-- Layer of a drawing (drawing.hpp Layer). -/
structure Layer where
  id : ℕ
  name : String
  visible : Bool
  locked : Bool
  opacity : ℚ
  object_ids : List ObjectID
deriving DecidableEq, Repr

/-- Drawing: canvas properties, layers and the object storage (drawing.hpp
Drawing; the next_layer_id counter, unused by the codec, is omitted). -/
structure Drawing where
  width : ℚ
  height : ℚ
  background_color : Color
  layers : List Layer
  storage : ObjectStorage
deriving DecidableEq, Repr

/-- Drawing's default constructor: 800 by 600 canvas, white background, one
default layer. -/
def Drawing.init : Drawing :=
  ⟨800, 600, Color.WHITE, [⟨0, "Default", true, false, 1, []⟩], {}⟩

/-- Binary format magic value ("DRWG"). -/
def BinaryFormat.MAGIC : ℕ := 1146441543

/-- Binary format version. -/
def BinaryFormat.VERSION : ℕ := 1

/-- write_vector: length prefix then the raw elements. -/
def write_vector {α : Type} (items : List α) (wrap : α → Atom) : List Atom :=
  Atom.u32 items.length :: items.map wrap

/-- BinarySerializer::serialize: magic, version, header chunk, one chunk per
layer, then one chunk per non-empty table (with the dependent pools right
after their owner tables), terminated by the end marker.  Chunk tags carry the
numeric values of BinaryFormat::ChunkType. -/
def BinarySerializer.serialize (d : Drawing) : List Atom :=
  [Atom.u32 BinaryFormat.MAGIC, Atom.u32 BinaryFormat.VERSION,
   Atom.u16 1, Atom.f32 d.width, Atom.f32 d.height, Atom.color d.background_color]
  ++ (d.layers.bind fun L =>
      [Atom.u16 2, Atom.u8 L.id, Atom.str L.name, Atom.boolByte L.visible,
       Atom.boolByte L.locked, Atom.f32 L.opacity, Atom.u32 L.object_ids.length]
      ++ L.object_ids.map Atom.u32)
  ++ (if d.storage.circles ≠ [] then
        Atom.u16 3 :: write_vector d.storage.circles Atom.circleRec else [])
  ++ (if d.storage.rectangles ≠ [] then
        Atom.u16 4 :: write_vector d.storage.rectangles Atom.rectangleRec else [])
  ++ (if d.storage.lines ≠ [] then
        Atom.u16 5 :: write_vector d.storage.lines Atom.lineRec else [])
  ++ (if d.storage.polygons ≠ [] then
        (Atom.u16 6 :: write_vector d.storage.polygons Atom.polygonRec)
        ++ (Atom.u16 7 :: write_vector d.storage.polygon_points Atom.pointRec)
      else [])
  ++ (if d.storage.ellipses ≠ [] then
        Atom.u16 8 :: write_vector d.storage.ellipses Atom.ellipseRec else [])
  ++ (if d.storage.polylines ≠ [] then
        (Atom.u16 9 :: write_vector d.storage.polylines Atom.polylineRec)
        ++ (Atom.u16 10 :: write_vector d.storage.polyline_points Atom.pointRec)
      else [])
  ++ (if d.storage.arcs ≠ [] then
        Atom.u16 11 :: write_vector d.storage.arcs Atom.arcRec else [])
  ++ (if d.storage.texts ≠ [] then
        (Atom.u16 12 :: write_vector d.storage.texts Atom.textRec)
        ++ (Atom.u16 13 :: Atom.u32 d.storage.text_strings.length ::
            d.storage.text_strings.map Atom.str)
        ++ (Atom.u16 14 :: Atom.u32 d.storage.font_names.length ::
            d.storage.font_names.map Atom.str)
      else [])
  ++ (if d.storage.paths ≠ [] then
        (Atom.u16 15 :: write_vector d.storage.paths Atom.pathRec)
        ++ (Atom.u16 16 :: write_vector d.storage.path_segments Atom.segRec)
        ++ (Atom.u16 17 :: write_vector d.storage.path_parameters Atom.f32)
      else [])
  ++ (if d.storage.groups ≠ [] then
        (Atom.u16 18 :: write_vector d.storage.groups Atom.groupRec)
        ++ (Atom.u16 19 :: write_vector d.storage.group_children Atom.u32)
      else [])
  ++ [Atom.u16 999]

/-- Read count raw elements through an extractor, failing at end of stream or
on a differently-shaped field. -/
def readN {α : Type} (extract : Atom → Option α) :
    ℕ → List Atom → Option (List α × List Atom)
  | 0, atoms => some ([], atoms)
  | _ + 1, [] => none
  | n + 1, a :: rest =>
    match extract a with
    | none => none
    | some v => (readN extract n rest).map (fun r => (v :: r.1, r.2))

/-- read_vector: length prefix, sanity ceiling of 10,000,000, then the
elements. -/
def read_vector {α : Type} (extract : Atom → Option α) (atoms : List Atom) :
    Option (List α × List Atom) :=
  match atoms with
  | Atom.u32 count :: rest =>
    if count > 10000000 then none else readN extract count rest
  | _ => none

/-- read_string: length-prefixed string with a sanity ceiling of 1,000,000
bytes. -/
def read_string : List Atom → Option (String × List Atom)
  | Atom.str s :: rest => if s.length > 1000000 then none else some (s, rest)
  | _ => none

/-- String extractor with the per-string sanity check, for the string-table
chunks. -/
def readStrElem : Atom → Option String
  | Atom.str s => if s.length > 1000000 then none else some s
  | _ => none

/-- The chunk loop of BinaryDeserializer::deserialize.  End of stream exits
the while loop and RETURNS THE DRAWING (the source breaks out and returns,
with no check that the end marker was ever seen); a failed field read inside
a chunk returns failure; an unknown tag returns failure; the layer chunk is
parsed and skipped (the source seeks past the object ids and never rebuilds
layers); the PolygonPoints chunk is read into a private buffer that is never
copied into the storage (source comment: TODO), so its data is dropped.  Fuel
only needs to exceed the stream length, every iteration consuming at least
the tag atom; reads that would be misaligned with the written field widths
cannot arise from a truncated serializer output and fail here. -/
def BinaryDeserializer.deserializeLoop : ℕ → Drawing → List Atom → Option Drawing
  | 0, d, _ => some d
  | _ + 1, d, [] => some d
  | fuel + 1, d, Atom.u16 tag :: rest =>
    if tag = 1 then
      match rest with
      | Atom.f32 w :: Atom.f32 h :: Atom.color bg :: rest2 =>
        BinaryDeserializer.deserializeLoop fuel
          { d with width := w, height := h, background_color := bg } rest2
      | _ => none
    else if tag = 2 then
      match rest with
      | Atom.u8 _ :: rest2 =>
        match read_string rest2 with
        | some (_, rest3) =>
          match rest3 with
          | Atom.boolByte _ :: Atom.boolByte _ :: Atom.f32 _ :: Atom.u32 obj_count :: rest4 =>
            BinaryDeserializer.deserializeLoop fuel d (rest4.drop obj_count)
          | _ => none
        | none => none
      | _ => none
    else if tag = 3 then
      match read_vector (fun a => match a with | Atom.circleRec c => some c | _ => none) rest with
      | some (vs, rest2) => BinaryDeserializer.deserializeLoop fuel { d with storage := { d.storage with circles := vs } } rest2
      | none => none
    else if tag = 4 then
      match read_vector (fun a => match a with | Atom.rectangleRec r => some r | _ => none) rest with
      | some (vs, rest2) => BinaryDeserializer.deserializeLoop fuel { d with storage := { d.storage with rectangles := vs } } rest2
      | none => none
    else if tag = 5 then
      match read_vector (fun a => match a with | Atom.lineRec l => some l | _ => none) rest with
      | some (vs, rest2) => BinaryDeserializer.deserializeLoop fuel { d with storage := { d.storage with lines := vs } } rest2
      | none => none
    else if tag = 6 then
      match read_vector (fun a => match a with | Atom.polygonRec p => some p | _ => none) rest with
      | some (vs, rest2) => BinaryDeserializer.deserializeLoop fuel { d with storage := { d.storage with polygons := vs } } rest2
      | none => none
    else if tag = 7 then
      match read_vector (fun a => match a with | Atom.pointRec p => some p | _ => none) rest with
      | some (_, rest2) => BinaryDeserializer.deserializeLoop fuel d rest2
      | none => none
    else if tag = 8 then
      match read_vector (fun a => match a with | Atom.ellipseRec e => some e | _ => none) rest with
      | some (vs, rest2) => BinaryDeserializer.deserializeLoop fuel { d with storage := { d.storage with ellipses := vs } } rest2
      | none => none
    else if tag = 9 then
      match read_vector (fun a => match a with | Atom.polylineRec p => some p | _ => none) rest with
      | some (vs, rest2) => BinaryDeserializer.deserializeLoop fuel { d with storage := { d.storage with polylines := vs } } rest2
      | none => none
    else if tag = 10 then
      match read_vector (fun a => match a with | Atom.pointRec p => some p | _ => none) rest with
      | some (vs, rest2) => BinaryDeserializer.deserializeLoop fuel { d with storage := { d.storage with polyline_points := vs } } rest2
      | none => none
    else if tag = 11 then
      match read_vector (fun a => match a with | Atom.arcRec a0 => some a0 | _ => none) rest with
      | some (vs, rest2) => BinaryDeserializer.deserializeLoop fuel { d with storage := { d.storage with arcs := vs } } rest2
      | none => none
    else if tag = 12 then
      match read_vector (fun a => match a with | Atom.textRec t => some t | _ => none) rest with
      | some (vs, rest2) => BinaryDeserializer.deserializeLoop fuel { d with storage := { d.storage with texts := vs } } rest2
      | none => none
    else if tag = 13 then
      match rest with
      | Atom.u32 count :: rest2 =>
        match readN readStrElem count rest2 with
        | some (vs, rest3) => BinaryDeserializer.deserializeLoop fuel { d with storage := { d.storage with text_strings := vs } } rest3
        | none => none
      | _ => none
    else if tag = 14 then
      match rest with
      | Atom.u32 count :: rest2 =>
        match readN readStrElem count rest2 with
        | some (vs, rest3) => BinaryDeserializer.deserializeLoop fuel { d with storage := { d.storage with font_names := vs } } rest3
        | none => none
      | _ => none
    else if tag = 15 then
      match read_vector (fun a => match a with | Atom.pathRec p => some p | _ => none) rest with
      | some (vs, rest2) => BinaryDeserializer.deserializeLoop fuel { d with storage := { d.storage with paths := vs } } rest2
      | none => none
    else if tag = 16 then
      match read_vector (fun a => match a with | Atom.segRec sg => some sg | _ => none) rest with
      | some (vs, rest2) => BinaryDeserializer.deserializeLoop fuel { d with storage := { d.storage with path_segments := vs } } rest2
      | none => none
    else if tag = 17 then
      match read_vector (fun a => match a with | Atom.f32 q => some q | _ => none) rest with
      | some (vs, rest2) => BinaryDeserializer.deserializeLoop fuel { d with storage := { d.storage with path_parameters := vs } } rest2
      | none => none
    else if tag = 18 then
      match read_vector (fun a => match a with | Atom.groupRec g => some g | _ => none) rest with
      | some (vs, rest2) => BinaryDeserializer.deserializeLoop fuel { d with storage := { d.storage with groups := vs } } rest2
      | none => none
    else if tag = 19 then
      match read_vector (fun a => match a with | Atom.u32 cid => some (cid : ObjectID) | _ => none) rest with
      | some (vs, rest2) => BinaryDeserializer.deserializeLoop fuel { d with storage := { d.storage with group_children := vs } } rest2
      | none => none
    else if tag = 999 then some d
    else none
  | _ + 1, _, _ :: _ => none

/-- BinaryDeserializer::deserialize: magic and version checks, then the chunk
loop on a fresh default drawing. -/
def BinaryDeserializer.deserialize (atoms : List Atom) : Option Drawing :=
  match atoms with
  | Atom.u32 m :: Atom.u32 v :: rest =>
    if m ≠ BinaryFormat.MAGIC then none
    else if v ≠ BinaryFormat.VERSION then none
    else BinaryDeserializer.deserializeLoop (rest.length + 1) Drawing.init rest
  | _ => none

/-- The drawing produced by Drawing() followed by add_polygon([(1, 2)]): one
default layer holding the polygon's handle, one polygon record with point
slice (offset 0, count 1), and one point in the polygon point pool. -/
def dPolyRT : Drawing :=
  { Drawing.init with
    layers := [⟨0, "Default", true, false, 1, [ObjectStorage.make_id .Polygon 0]⟩],
    storage := { polygons := [CompactPolygon.init 0 1], polygon_points := [⟨1, 2⟩] } }

/-- C1 evidence: serializing the one-polygon drawing and deserializing the
result succeeds, but the loaded storage has an EMPTY polygon point pool while
its polygon record still claims one point at offset 0 — the deserializer
parses the PolygonPoints chunk into a buffer it never copies into the
storage, so deserialize(serialize(S)) does not reproduce the polygon points
field. -/
theorem c1_round_trip_loses_polygon_points :
    (BinaryDeserializer.deserialize (BinarySerializer.serialize dPolyRT)).map
        (fun d => (d.storage.polygons, d.storage.polygon_points)) =
      some ([CompactPolygon.init 0 1], []) ∧
    dPolyRT.storage.polygon_points = [⟨1, 2⟩] :=
  ⟨rfl, rfl⟩

/-- The drawing produced by Drawing() followed by add_circle(100, 100, 50). -/
def dCircRT : Drawing :=
  { Drawing.init with
    layers := [⟨0, "Default", true, false, 1, [ObjectStorage.make_id .Circle 0]⟩],
    storage := { circles := [CompactCircle.init 100 100 50] } }

/-- C2 counterexample: its serialized stream is 18 fields long; truncating it
after the sixth field (right after the header chunk, strictly inside the
buffer) deserializes SUCCESSFULLY to a drawing with an empty circle table —
a partially populated storage is handed back instead of a failure. -/
theorem c2_truncation_partial_counterexample :
    6 < (BinarySerializer.serialize dCircRT).length ∧
    (BinaryDeserializer.deserialize ((BinarySerializer.serialize dCircRT).take 6)).map
        (fun d => d.storage.circles) = some [] ∧
    dCircRT.storage.circles ≠ [] := by
  refine ⟨by decide, rfl, by decide⟩

/-- C2 amended: deserializing a truncated prefix never crashes (the reader is
a total function) and fails for every truncation that cuts a chunk's fields,
but it does NOT always fail: on the one-circle drawing's 18-field stream the
prefixes of length 2 (after the version word), 6 (after the header chunk),
13 and 14 (at or inside the skipped layer-objects region) and 17 (after the
circles chunk) are accepted, returning a partially populated drawing. -/
theorem c2_truncation_boundary_behaviour (k : ℕ)
    (hk : k < (BinarySerializer.serialize dCircRT).length) :
    ((BinaryDeserializer.deserialize
        ((BinarySerializer.serialize dCircRT).take k)).isSome = true ↔
      k ∈ [2, 6, 13, 14, 17]) := by
  have hlen : (BinarySerializer.serialize dCircRT).length = 18 := rfl
  rw [hlen] at hk
  interval_cases k <;> decide

/-- Witness for the C2 amended theorem at truncation point 6. -/
theorem c2_truncation_boundary_witness :
    6 < (BinarySerializer.serialize dCircRT).length ∧
    ((BinaryDeserializer.deserialize
        ((BinarySerializer.serialize dCircRT).take 6)).isSome = true ↔
      6 ∈ [2, 6, 13, 14, 17]) :=
  ⟨by decide, c2_truncation_boundary_behaviour 6 (by decide)⟩
